import Mathlib

/-
Verification of the CanvasContracts rule-based graph analysis engine.

This file gives a shallow embedding, in Lean 4, of the analysis core of the
repository (the AI validator, pattern-recognition engine, gas/optimization
engine of `src/ai/*`, the value-type compatibility relation of `src/types.rs`,
and the caching performance optimizer of `src/optimization/mod.rs`), together
with theorems settling the specification claims about that code.

Modelling conventions:
  * Rust `Vec<T>` / slices become `List T`; `HashMap`/`HashSet` become
    association lists / lists used as sets (all key types here have decidable
    equality, and the source only observes order-insensitive facts of the
    hash containers, except where noted).
  * `u64` arithmetic is modelled by `Nat`; the quantities produced by the
    analysis are tiny compared to `2^64`, and `u64::saturating_sub` is exactly
    `Nat` subtraction.
  * `f64` confidence scores are modelled by `ℚ`.  Every confidence the code
    can produce is a quotient `m / t` with `t ≤ 5`, and all comparisons made
    against the literal `0.6` agree between exact rationals and IEEE doubles
    for such quotients.
  * Recursive graph walks (DFS, BFS work-lists) are modelled with an explicit
    fuel argument, structurally recursive so that concrete executions reduce
    in the kernel.  The fuel bounds chosen are large enough that the sentinel
    exhaustion branch is unreachable for the executions a claim talks about;
    where a theorem depends on a walk's result it is stated so that it holds
    for every fuel value, or evaluated on a concrete graph.
-/

set_option maxHeartbeats 1000000 in
/-- Dummy section header; ensures options are exercised early. -/
theorem spec2proof_sanity : True := trivial

/-! ## Core graph data model

The AI analysis modules import `Graph`, `Node`, `Edge` and `NodeType` from
`crate::types`, but the version of `src/types.rs` in the tree only defines the
visual-editor types; the analysis-side graph container itself is absent from
`src/` (its shape is visible in `tests/ai_tests.rs` and in every consumer).
The definitions below are therefore modelled from the spec. -/

/-- Modelled from the spec: the closed node-type enumeration
`{Start, End, State, Logic, Arithmetic, External, Control}` (spec §3),
used by every cost/rule table lookup. -/
inductive NodeType where
  | Start
  | End
  | State
  | Logic
  | Arithmetic
  | External
  | Control
deriving DecidableEq

/-- Modelled from the spec: `Node = {id, type, position, properties}`
(spec §3).  Ids are strings (as in `tests/ai_tests.rs`); property values are
opaque to the analysis core and modelled as strings. -/
structure Node where
  id : String
  node_type : NodeType
  position : Int × Int
  properties : List (String × String)
deriving DecidableEq

/-- Modelled from the spec: `Edge = {id, source_node_id, target_node_id,
optional source_port, optional target_port}` (spec §3); the optional handles
are the ports. -/
structure Edge where
  id : String
  source : String
  target : String
  source_handle : Option String
  target_handle : Option String
deriving DecidableEq

/-- Modelled from the spec: a graph is an ordered collection of nodes plus an
edge multiset (spec §3).  Edges may reference missing node ids; that is a
detectable error state, not a precondition violation. -/
structure Graph where
  nodes : List Node
  edges : List Edge
deriving DecidableEq

/-- `Graph::get_nodes` returns the node collection in its stored order. -/
def Graph.get_nodes (g : Graph) : List Node := g.nodes

/-- `Graph::get_edges` returns the edge collection. -/
def Graph.get_edges (g : Graph) : List Edge := g.edges

/-- The step relation of the edge list: `step es u v` holds when some edge in
`es` goes from id `u` to id `v`. -/
def EdgeStep (es : List Edge) (u v : String) : Prop :=
  ∃ e ∈ es, e.source = u ∧ e.target = v

instance (es : List Edge) (u v : String) : Decidable (EdgeStep es u v) := by
  unfold EdgeStep; infer_instance

/-! ### Fixed-length windows

Rust's `slice::windows(n)` (used by every sequence-window matcher in the
source) yields each contiguous run of `n` elements, in order. -/

/-- All contiguous runs of length `n` of a list, in order: the model of
`slice::windows(n)` (for `n ≥ 1`, the only way the source calls it). -/
def windowsOfLen (n : Nat) (l : List α) : List (List α) :=
  (List.range (l.length + 1 - n)).map (fun i => (l.drop i).take n)

theorem windowsOfLen_nil (n : Nat) : windowsOfLen n ([] : List α) = if n = 0 then [[]] else [] := by
  cases n with
  | zero => simp [windowsOfLen, List.range_succ]
  | succ m => simp [windowsOfLen]

/-- Characterisation of window membership: `w` is a window of length `n` of
`l` iff `w` has length `n` and occurs contiguously inside `l`. -/
theorem mem_windowsOfLen {n : Nat} (hn : 0 < n) {l w : List α} :
    w ∈ windowsOfLen n l ↔ w.length = n ∧ ∃ l₁ l₂, l = l₁ ++ w ++ l₂ := by
  constructor
  · intro hw
    simp only [windowsOfLen, List.mem_map, List.mem_range] at hw
    obtain ⟨i, hi, rfl⟩ := hw
    have hin : i + n ≤ l.length := by omega
    constructor
    · rw [List.length_take, List.length_drop]; omega
    · refine ⟨l.take i, (l.drop i).drop n, ?_⟩
      rw [List.append_assoc, List.take_append_drop (l := l.drop i) (n := n),
        List.take_append_drop]
  · rintro ⟨hlen, l₁, l₂, rfl⟩
    simp only [windowsOfLen, List.mem_map, List.mem_range]
    refine ⟨l₁.length, ?_, ?_⟩
    · simp only [List.length_append]; omega
    · rw [List.append_assoc, List.drop_left, ← hlen, List.take_left]

/-- Windows of length 1 are exactly the singletons of the list's elements. -/
theorem windowsOfLen_one (l : List α) :
    windowsOfLen 1 l = l.map (fun x => [x]) := by
  induction l with
  | nil => simp [windowsOfLen]
  | cons a t ih =>
    have h1 := ih
    simp only [windowsOfLen] at h1 ⊢
    rw [List.length_cons, show t.length + 1 + 1 - 1 = (t.length + 1 - 1) + 1 from by omega,
      List.range_succ_eq_map]
    simp only [List.map_cons, List.drop_zero, List.map_map]
    have h2 : List.map ((fun i => List.take 1 (List.drop i (a :: t))) ∘ Nat.succ)
        (List.range (t.length + 1 - 1)) = List.map (fun x => [x]) t := by
      rw [← h1]
      apply List.map_congr_left
      intro i _
      simp
    rw [h2]
    simp

/-! ## `src/ai/mod.rs` result types -/

/-- Severity level (`ai::Severity`). -/
inductive Severity where
  | Low
  | Medium
  | High
  | Critical
deriving DecidableEq

/-- Pattern category (`ai::PatternCategory`). -/
inductive PatternCategory where
  | Token
  | Voting
  | Escrow
  | Marketplace
  | Governance
  | Custom
deriving DecidableEq

/-- A recognized contract pattern (`ai::ContractPattern`).  The `f64`
confidence is modelled by `ℚ`. -/
structure ContractPattern where
  name : String
  description : String
  confidence : ℚ
  nodes : List String
  category : PatternCategory

/-- A detected anti-pattern (`ai::AntiPattern`). -/
structure AntiPattern where
  name : String
  description : String
  severity : Severity
  nodes : List String
  suggestion : String
deriving DecidableEq

/-- A detected security issue (`ai::SecurityIssue`). -/
structure SecurityIssue where
  name : String
  description : String
  severity : Severity
  nodes : List String
  cve_reference : Option String
  mitigation : String
deriving DecidableEq

/-! ## `src/ai/pattern_recognition.rs` -/

/-- Pattern definition used by the recognizer (`PatternDefinition`). -/
structure PatternDefinition where
  name : String
  category : PatternCategory
  description : String
  node_sequence : List NodeType
  required_connections : List (NodeType × NodeType)
  optional_nodes : List NodeType

/-- Anti-pattern definition (`AntiPatternDefinition`). -/
structure AntiPatternDefinition where
  name : String
  description : String
  severity : Severity
  pattern : List NodeType
  suggestion : String

/-- Security pattern definition (`SecurityPatternDefinition`). -/
structure SecurityPatternDefinition where
  name : String
  description : String
  severity : Severity
  cve_reference : Option String
  pattern : List NodeType
  mitigation : String

namespace PatternRecognitionEngine

/-- `PatternRecognitionEngine::has_connection`: does any edge connect a node
of `source_type` to a node of `target_type`?  Dangling edge endpoints are
skipped, exactly as the source's `if let (Some(..), Some(..))`. -/
def has_connection (g : Graph) (source_type target_type : NodeType) : Bool :=
  g.get_edges.any (fun e =>
    match g.get_nodes.find? (fun n => n.id = e.source),
        g.get_nodes.find? (fun n => n.id = e.target) with
    | some s, some t => s.node_type = source_type && t.node_type = target_type
    | _, _ => false)

/-- `PatternRecognitionEngine::match_pattern`.  The first loop counts the
sequence types present anywhere in the graph; the second adds one to both
`matches` and `total_required` for each *satisfied* required connection.
Returns `None` when the final denominator is zero. -/
def match_pattern (g : Graph) (p : PatternDefinition) : Option ℚ :=
  let matches1 : Nat := p.node_sequence.foldl
    (fun acc required_type =>
      if g.get_nodes.any (fun n => n.node_type = required_type) then acc + 1 else acc) 0
  let mt : Nat × Nat := p.required_connections.foldl
    (fun acc st =>
      if has_connection g st.1 st.2 then (acc.1 + 1, acc.2 + 1) else acc)
    (matches1, p.node_sequence.length)
  if mt.2 = 0 then none
  else some ((mt.1 : ℚ) / (mt.2 : ℚ))

/-- `PatternRecognitionEngine::match_anti_pattern`: sliding-window match of
the anti-pattern's node-type sequence over the node collection order. -/
def match_anti_pattern (g : Graph) (ap : AntiPatternDefinition) : Bool :=
  (windowsOfLen ap.pattern.length g.get_nodes).any
    (fun w => w.map (fun n => n.node_type) = ap.pattern)

/-- `PatternRecognitionEngine::match_security_pattern`: sliding-window match
of the security pattern's node-type sequence over the node collection order.
Note this inspects only the node order; it never looks at the edges. -/
def match_security_pattern (g : Graph) (sp : SecurityPatternDefinition) : Bool :=
  (windowsOfLen sp.pattern.length g.get_nodes).any
    (fun w => w.map (fun n => n.node_type) = sp.pattern)

/-- `PatternRecognitionEngine::find_pattern_nodes`. -/
def find_pattern_nodes (g : Graph) (p : PatternDefinition) : List String :=
  (g.get_nodes.filter (fun n => p.node_sequence.contains n.node_type)).map (fun n => n.id)

/-- `PatternRecognitionEngine::find_anti_pattern_nodes`. -/
def find_anti_pattern_nodes (g : Graph) (ap : AntiPatternDefinition) : List String :=
  ((windowsOfLen ap.pattern.length g.get_nodes).filter
    (fun w => w.map (fun n => n.node_type) = ap.pattern)).flatMap
    (fun w => w.map (fun n => n.id))

/-- `PatternRecognitionEngine::find_security_pattern_nodes`. -/
def find_security_pattern_nodes (g : Graph) (sp : SecurityPatternDefinition) : List String :=
  ((windowsOfLen sp.pattern.length g.get_nodes).filter
    (fun w => w.map (fun n => n.node_type) = sp.pattern)).flatMap
    (fun w => w.map (fun n => n.id))

/-- First entry of `define_patterns`: the ERC-20 token pattern. -/
def erc20TokenPattern : PatternDefinition :=
  { name := "ERC-20 Token"
    category := .Token
    description := "Standard fungible token contract"
    node_sequence := [.State, .Logic, .External]
    required_connections := [(.State, .Logic), (.Logic, .External)]
    optional_nodes := [.Control] }

/-- Second entry of `define_patterns`: the voting pattern. -/
def votingPattern : PatternDefinition :=
  { name := "Voting Mechanism"
    category := .Voting
    description := "Decentralized voting system"
    node_sequence := [.State, .Logic, .Control]
    required_connections := [(.State, .Logic), (.Control, .Logic)]
    optional_nodes := [.External] }

/-- Third entry of `define_patterns`: the escrow pattern. -/
def escrowPattern : PatternDefinition :=
  { name := "Escrow Contract"
    category := .Escrow
    description := "Conditional payment system"
    node_sequence := [.State, .Logic, .Control]
    required_connections := [(.State, .Logic), (.Control, .Logic)]
    optional_nodes := [.External] }

/-- `PatternRecognitionEngine::define_patterns`: the ERC-20 token, voting and
escrow pattern catalogue. -/
def define_patterns : List PatternDefinition :=
  [erc20TokenPattern, votingPattern, escrowPattern]

/-- First entry of `define_anti_patterns`. -/
def uncheckedArithmeticAP : AntiPatternDefinition :=
  { name := "Unchecked Arithmetic"
    description := "Arithmetic operations without overflow checks"
    severity := .High
    pattern := [.Arithmetic, .State]
    suggestion := "Add overflow checks before arithmetic operations" }

/-- Second entry of `define_anti_patterns`. -/
def reentrancyRiskAP : AntiPatternDefinition :=
  { name := "Reentrancy Risk"
    description := "External calls before state updates"
    severity := .Critical
    pattern := [.External, .State]
    suggestion := "Update state before making external calls" }

/-- Third entry of `define_anti_patterns`: a single-element window, so it
matches exactly when some node of type `State` exists. -/
def missingAccessControlAP : AntiPatternDefinition :=
  { name := "Missing Access Control"
    description := "State modifications without permission checks"
    severity := .High
    pattern := [.State]
    suggestion := "Add access control checks before state modifications" }

/-- `PatternRecognitionEngine::define_anti_patterns`. -/
def define_anti_patterns : List AntiPatternDefinition :=
  [uncheckedArithmeticAP, reentrancyRiskAP, missingAccessControlAP]

/-- First entry of `define_security_patterns`. -/
def integerOverflowSP : SecurityPatternDefinition :=
  { name := "Integer Overflow"
    description := "Potential integer overflow in arithmetic operations"
    severity := .High
    cve_reference := some "CVE-2018-10299"
    pattern := [.Arithmetic, .State]
    mitigation := "Use checked arithmetic operations or SafeMath library" }

/-- Second entry of `define_security_patterns`: the reentrancy window. -/
def reentrancyAttackSP : SecurityPatternDefinition :=
  { name := "Reentrancy Attack"
    description := "Vulnerable to reentrancy attacks"
    severity := .Critical
    cve_reference := some "CVE-2016-10709"
    pattern := [.External, .State]
    mitigation := "Follow checks-effects-interactions pattern" }

/-- Third entry of `define_security_patterns`. -/
def accessControlBypassSP : SecurityPatternDefinition :=
  { name := "Access Control Bypass"
    description := "Missing or insufficient access controls"
    severity := .High
    cve_reference := none
    pattern := [.State]
    mitigation := "Implement proper access control mechanisms" }

/-- `PatternRecognitionEngine::define_security_patterns`. -/
def define_security_patterns : List SecurityPatternDefinition :=
  [integerOverflowSP, reentrancyAttackSP, accessControlBypassSP]

/-- `PatternRecognitionEngine::recognize_patterns`: report each catalogue
pattern whose confidence exceeds the hard-coded `0.6` threshold. -/
def recognize_patterns (g : Graph) : List ContractPattern :=
  define_patterns.filterMap (fun pattern_def =>
    match match_pattern g pattern_def with
    | some confidence =>
        if confidence > (3 : ℚ) / 5 then
          some { name := pattern_def.name
                 description := pattern_def.description
                 confidence := confidence
                 nodes := find_pattern_nodes g pattern_def
                 category := pattern_def.category }
        else none
    | none => none)

/-- `PatternRecognitionEngine::detect_anti_patterns`. -/
def detect_anti_patterns (g : Graph) : List AntiPattern :=
  define_anti_patterns.filterMap (fun ap =>
    if match_anti_pattern g ap then
      some { name := ap.name
             description := ap.description
             severity := ap.severity
             nodes := find_anti_pattern_nodes g ap
             suggestion := ap.suggestion }
    else none)

/-- `PatternRecognitionEngine::detect_security_issues`. -/
def detect_security_issues (g : Graph) : List SecurityIssue :=
  define_security_patterns.filterMap (fun sp =>
    if match_security_pattern g sp then
      some { name := sp.name
             description := sp.description
             severity := sp.severity
             nodes := find_security_pattern_nodes g sp
             cve_reference := sp.cve_reference
             mitigation := sp.mitigation }
    else none)

end PatternRecognitionEngine

/-! ### Window-matching lemmas -/

/-- A window-equality `any` over `windowsOfLen` succeeds exactly when the
mapped pattern occurs contiguously in the list. -/
theorem any_window_match_iff {β : Type} [DecidableEq β] (f : Node → β) (pat : List β)
    (hn : 0 < pat.length) (l : List Node) :
    ((windowsOfLen pat.length l).any (fun w => w.map f = pat) = true) ↔
      ∃ l₁ w l₂, l = l₁ ++ w ++ l₂ ∧ w.map f = pat := by
  rw [List.any_eq_true]
  constructor
  · rintro ⟨w, hw, hmap⟩
    rw [mem_windowsOfLen hn] at hw
    obtain ⟨-, l₁, l₂, rfl⟩ := hw
    exact ⟨l₁, w, l₂, rfl, by simpa using hmap⟩
  · rintro ⟨l₁, w, l₂, rfl, hmap⟩
    refine ⟨w, ?_, by simpa using hmap⟩
    rw [mem_windowsOfLen hn]
    have hlw : w.length = pat.length := by rw [← hmap]; simp
    exact ⟨hlw, l₁, l₂, rfl⟩

/-- C9: for every graph, `detect_anti_patterns` reports a "Missing Access
Control" anti-pattern of severity `High` if and only if the graph contains a
node of type `State`: the single-element window `[State]` matches any `State`
node anywhere in the node collection, and no such finding exists otherwise. -/
theorem c9_missing_access_control (g : Graph) :
    (∃ n ∈ g.get_nodes, n.node_type = .State) ↔
      ∃ a ∈ PatternRecognitionEngine.detect_anti_patterns g,
        a.name = "Missing Access Control" ∧ a.severity = .High := by
  have hmatch : PatternRecognitionEngine.match_anti_pattern g
      PatternRecognitionEngine.missingAccessControlAP = true ↔
      ∃ n ∈ g.get_nodes, n.node_type = .State := by
    unfold PatternRecognitionEngine.match_anti_pattern
      PatternRecognitionEngine.missingAccessControlAP
    simp only [List.length_cons, List.length_nil, Nat.zero_add, windowsOfLen_one,
      List.any_eq_true, List.mem_map, decide_eq_true_eq]
    constructor
    · rintro ⟨w, ⟨n, hn, rfl⟩, hmap⟩
      exact ⟨n, hn, by simpa using hmap⟩
    · rintro ⟨n, hn, hty⟩
      exact ⟨[n], ⟨n, hn, rfl⟩, by simpa using hty⟩
  constructor
  · intro hstate
    refine ⟨{ name := "Missing Access Control"
              description := "State modifications without permission checks"
              severity := .High
              nodes := PatternRecognitionEngine.find_anti_pattern_nodes g
                PatternRecognitionEngine.missingAccessControlAP
              suggestion := "Add access control checks before state modifications" },
      ?_, rfl, rfl⟩
    unfold PatternRecognitionEngine.detect_anti_patterns
    rw [List.mem_filterMap]
    refine ⟨PatternRecognitionEngine.missingAccessControlAP, by
      simp [PatternRecognitionEngine.define_anti_patterns], ?_⟩
    rw [if_pos (hmatch.mpr hstate)]
    rfl
  · rintro ⟨a, ha, hname, -⟩
    unfold PatternRecognitionEngine.detect_anti_patterns at ha
    rw [List.mem_filterMap] at ha
    obtain ⟨d, hd, hfd⟩ := ha
    simp only [PatternRecognitionEngine.define_anti_patterns, List.mem_cons,
      List.mem_singleton, List.not_mem_nil, or_false] at hd
    rcases hd with rfl | rfl | rfl
    · split at hfd
      · rw [Option.some_inj] at hfd
        subst hfd
        simp [PatternRecognitionEngine.uncheckedArithmeticAP] at hname
      · cases hfd
    · split at hfd
      · rw [Option.some_inj] at hfd
        subst hfd
        simp [PatternRecognitionEngine.reentrancyRiskAP] at hname
      · cases hfd
    · split at hfd
      · next hm => exact hmatch.mp hm
      · cases hfd

/-- C3 (amended): the reentrancy security finding is governed by the *node
collection order*, not by the edges: `detect_security_issues` reports the
Critical "Reentrancy Attack" finding exactly when a node of type `External`
is immediately followed by a node of type `State` in the node list. -/
theorem c3_reentrancy_window_order (g : Graph) :
    (∃ l₁ n₁ n₂ l₂, g.get_nodes = l₁ ++ n₁ :: n₂ :: l₂ ∧
        n₁.node_type = .External ∧ n₂.node_type = .State) ↔
      ∃ i ∈ PatternRecognitionEngine.detect_security_issues g,
        i.name = "Reentrancy Attack" ∧ i.severity = .Critical := by
  have hmatch : PatternRecognitionEngine.match_security_pattern g
      PatternRecognitionEngine.reentrancyAttackSP = true ↔
      ∃ l₁ n₁ n₂ l₂, g.get_nodes = l₁ ++ n₁ :: n₂ :: l₂ ∧
        n₁.node_type = .External ∧ n₂.node_type = .State := by
    unfold PatternRecognitionEngine.match_security_pattern
    rw [show PatternRecognitionEngine.reentrancyAttackSP.pattern
      = [NodeType.External, NodeType.State] from rfl]
    rw [any_window_match_iff (fun n => n.node_type) [NodeType.External, NodeType.State]
      (by decide) g.get_nodes]
    constructor
    · rintro ⟨l₁, w, l₂, hsplit, hmap⟩
      obtain ⟨n₁, n₂, rfl⟩ : ∃ n₁ n₂, w = [n₁, n₂] := by
        have hw2 : w.length = 2 := by rw [← List.length_map w (fun n => n.node_type), hmap]; rfl
        match w, hw2 with
        | [a, b], _ => exact ⟨a, b, rfl⟩
      simp only [List.map_cons, List.map_nil, List.cons.injEq, and_true] at hmap
      exact ⟨l₁, n₁, n₂, l₂, by simpa using hsplit, hmap.1, hmap.2⟩
    · rintro ⟨l₁, n₁, n₂, l₂, hsplit, h₁, h₂⟩
      exact ⟨l₁, [n₁, n₂], l₂, by simpa using hsplit, by simp [h₁, h₂]⟩
  constructor
  · intro hwin
    refine ⟨{ name := "Reentrancy Attack"
              description := "Vulnerable to reentrancy attacks"
              severity := .Critical
              nodes := PatternRecognitionEngine.find_security_pattern_nodes g
                PatternRecognitionEngine.reentrancyAttackSP
              cve_reference := some "CVE-2016-10709"
              mitigation := "Follow checks-effects-interactions pattern" },
      ?_, rfl, rfl⟩
    unfold PatternRecognitionEngine.detect_security_issues
    rw [List.mem_filterMap]
    refine ⟨PatternRecognitionEngine.reentrancyAttackSP, by
      simp [PatternRecognitionEngine.define_security_patterns], ?_⟩
    rw [if_pos (hmatch.mpr hwin)]
    rfl
  · rintro ⟨i, hi, hname, -⟩
    unfold PatternRecognitionEngine.detect_security_issues at hi
    rw [List.mem_filterMap] at hi
    obtain ⟨d, hd, hfd⟩ := hi
    simp only [PatternRecognitionEngine.define_security_patterns, List.mem_cons,
      List.mem_singleton, List.not_mem_nil, or_false] at hd
    rcases hd with rfl | rfl | rfl
    · split at hfd
      · rw [Option.some_inj] at hfd
        subst hfd
        simp [PatternRecognitionEngine.integerOverflowSP] at hname
      · cases hfd
    · split at hfd
      · next hm => exact hmatch.mp hm
      · cases hfd
    · split at hfd
      · rw [Option.some_inj] at hfd
        subst hfd
        simp [PatternRecognitionEngine.accessControlBypassSP] at hname
      · cases hfd

/-- A graph with an `External → State` edge whose node list stores the
`State` node *before* the `External` node. -/
def c3Graph : Graph :=
  { nodes := [ { id := "s", node_type := .State, position := (0, 0), properties := [] },
               { id := "e", node_type := .External, position := (1, 0), properties := [] } ]
    edges := [ { id := "x", source := "e", target := "s",
                 source_handle := none, target_handle := none } ] }

/-- C3 counterexample: `c3Graph` contains an edge from an `External` node to
a `State` node (witnessed by the source's own `has_connection` helper), yet
`detect_security_issues` reports no reentrancy finding at all, because the
window matcher only inspects node order.  This refutes the claim that every
graph with an `External → State` edge gets a reentrancy finding. -/
theorem c3_counterexample :
    PatternRecognitionEngine.has_connection c3Graph .External .State = true ∧
    ∀ i ∈ PatternRecognitionEngine.detect_security_issues c3Graph,
      i.name ≠ "Reentrancy Attack" := by
  constructor
  · decide
  · decide

/-! ### Confidence arithmetic for `match_pattern` -/

/-- Counting fold: conditional increment over a list is `countP`. -/
theorem foldl_count (cond : α → Bool) (l : List α) (k : Nat) :
    l.foldl (fun acc t => if cond t then acc + 1 else acc) k = k + l.countP cond := by
  induction l generalizing k with
  | nil => simp
  | cons a t ih =>
    rw [List.foldl_cons, List.countP_cons]
    by_cases h : cond a = true
    · rw [if_pos h, ih, if_pos h]; omega
    · rw [if_neg h, ih, if_neg h]; omega

/-- Pair-counting fold: the connection loop of `match_pattern` adds the number
of satisfied connections to both components. -/
theorem foldl_pair_count (cond : α → Bool) (l : List α) (m t : Nat) :
    l.foldl (fun acc st => if cond st then (acc.1 + 1, acc.2 + 1) else acc) (m, t)
      = (m + l.countP cond, t + l.countP cond) := by
  induction l generalizing m t with
  | nil => simp
  | cons a rest ih =>
    rw [List.foldl_cons, List.countP_cons]
    by_cases h : cond a = true
    · rw [if_pos h, ih]
      rw [if_pos h]
      simp only [Prod.mk.injEq]
      omega
    · rw [if_neg h, ih, if_neg h]
      simp only [Prod.mk.injEq]
      omega

/-- The number of sequence criteria of `p` satisfied by `g`: how many entries
of the node-type sequence have *some* node of that type in the graph. -/
def seqMatchCount (g : Graph) (p : PatternDefinition) : Nat :=
  p.node_sequence.countP (fun required_type =>
    g.get_nodes.any (fun n => n.node_type = required_type))

/-- The number of required connections of `p` satisfied by `g`. -/
def satConnCount (g : Graph) (p : PatternDefinition) : Nat :=
  p.required_connections.countP (fun st =>
    PatternRecognitionEngine.has_connection g st.1 st.2)

/-- Closed form of `match_pattern`: the numerator counts satisfied sequence
and connection criteria, and the denominator is the sequence length plus the
number of *satisfied* connections only. -/
theorem match_pattern_eq (g : Graph) (p : PatternDefinition) :
    PatternRecognitionEngine.match_pattern g p =
      if p.node_sequence.length + satConnCount g p = 0 then none
      else some (((seqMatchCount g p + satConnCount g p : Nat) : ℚ) /
                 ((p.node_sequence.length + satConnCount g p : Nat) : ℚ)) := by
  unfold PatternRecognitionEngine.match_pattern
  simp only [foldl_count, foldl_pair_count, Nat.zero_add]
  rfl

/-- C4 (amended): (1) whenever `match_pattern` returns a confidence, it equals
`matched_criteria / (|node_sequence| + satisfied_connections)` — the
denominator counts a required connection only when it is satisfied, so it is
*not* fixed up front at `|node_sequence| + |required_connections|`; and
(2) `recognize_patterns` reports a pattern only when its confidence exceeds
the hard-coded threshold `0.6`. -/
theorem c4_confidence_denominator :
    (∀ (g : Graph) (p : PatternDefinition) (c : ℚ),
        PatternRecognitionEngine.match_pattern g p = some c →
          c = ((seqMatchCount g p + satConnCount g p : Nat) : ℚ) /
              ((p.node_sequence.length + satConnCount g p : Nat) : ℚ)) ∧
    (∀ (g : Graph) (pat : ContractPattern),
        pat ∈ PatternRecognitionEngine.recognize_patterns g →
          pat.confidence > 3 / 5) := by
  constructor
  · intro g p c h
    rw [match_pattern_eq] at h
    split at h
    · cases h
    · exact (Option.some_inj.mp h).symm
  · intro g pat h
    unfold PatternRecognitionEngine.recognize_patterns at h
    rw [List.mem_filterMap] at h
    obtain ⟨d, _, hfd⟩ := h
    split at hfd
    · split at hfd
      · next hgt =>
        rw [Option.some_inj] at hfd
        subst hfd
        exact hgt
      · cases hfd
    · cases hfd

/-- A graph holding one `State`, one `Logic` and one `External` node and no
edges: every sequence criterion of the ERC-20 pattern is met, no required
connection is. -/
def c4Graph : Graph :=
  { nodes := [ { id := "st", node_type := .State, position := (0, 0), properties := [] },
               { id := "lg", node_type := .Logic, position := (1, 0), properties := [] },
               { id := "ex", node_type := .External, position := (2, 0), properties := [] } ]
    edges := [] }

/-- On `c4Graph` the three sequence criteria of the ERC-20 pattern are all
met and neither required connection is. -/
theorem c4Graph_counts :
    seqMatchCount c4Graph PatternRecognitionEngine.erc20TokenPattern = 3 ∧
    satConnCount c4Graph PatternRecognitionEngine.erc20TokenPattern = 0 := by
  constructor
  · decide
  · decide

/-- The confidence the code computes on `c4Graph` for the ERC-20 pattern. -/
theorem c4Graph_match_result :
    PatternRecognitionEngine.match_pattern c4Graph
      PatternRecognitionEngine.erc20TokenPattern = some 1 := by
  rw [match_pattern_eq, c4Graph_counts.1, c4Graph_counts.2,
    show PatternRecognitionEngine.erc20TokenPattern.node_sequence.length = 3 from rfl]
  norm_num

/-- C4 counterexample: on `c4Graph` the code computes confidence `1` for the
ERC-20 pattern (denominator `3 + 0` satisfied connections), while the claimed
fixed denominator `|sequence| + |required_connections| = 5` would give `3/5`;
the two disagree, and the code even reports the pattern (`1 > 0.6`) where the
claimed formula would not (`3/5 ≯ 0.6`). -/
theorem c4_counterexample :
    PatternRecognitionEngine.match_pattern c4Graph
      PatternRecognitionEngine.erc20TokenPattern = some 1 ∧
    ((seqMatchCount c4Graph PatternRecognitionEngine.erc20TokenPattern
        + satConnCount c4Graph PatternRecognitionEngine.erc20TokenPattern : Nat) : ℚ) /
      ((PatternRecognitionEngine.erc20TokenPattern.node_sequence.length
        + PatternRecognitionEngine.erc20TokenPattern.required_connections.length : Nat) : ℚ)
      = 3 / 5 ∧
    (1 : ℚ) ≠ 3 / 5 := by
  refine ⟨c4Graph_match_result, ?_, by norm_num⟩
  rw [c4Graph_counts.1, c4Graph_counts.2,
    show PatternRecognitionEngine.erc20TokenPattern.node_sequence.length = 3 from rfl,
    show PatternRecognitionEngine.erc20TokenPattern.required_connections.length = 2 from rfl]
  norm_num

/-- C4 witness: the amended confidence formula evaluated at `c4Graph` and the
ERC-20 pattern. -/
theorem c4_witness :
    PatternRecognitionEngine.match_pattern c4Graph
      PatternRecognitionEngine.erc20TokenPattern = some 1 ∧
    (1 : ℚ) = ((seqMatchCount c4Graph PatternRecognitionEngine.erc20TokenPattern
        + satConnCount c4Graph PatternRecognitionEngine.erc20TokenPattern : Nat) : ℚ) /
      ((PatternRecognitionEngine.erc20TokenPattern.node_sequence.length
        + satConnCount c4Graph PatternRecognitionEngine.erc20TokenPattern : Nat) : ℚ) :=
  ⟨c4Graph_match_result, c4_confidence_denominator.1 c4Graph
    PatternRecognitionEngine.erc20TokenPattern 1 c4Graph_match_result⟩

/-! ## `src/ai/mod.rs` optimization result types and `src/ai/optimization.rs` -/

/-- An optimization suggestion (`ai::OptimizationSuggestion`). -/
structure OptimizationSuggestion where
  title : String
  description : String
  estimated_gas_savings : Nat
  nodes : List String
  implementation : String
deriving DecidableEq

/-- The AI optimizer's result (`ai::OptimizationResult`). -/
structure OptimizationResult where
  original_gas_estimate : Nat
  optimized_gas_estimate : Nat
  gas_savings : Nat
  suggestions : List OptimizationSuggestion
  modified_graph : Option Graph

/-- A rewrite rule of the optimization engine (`OptimizationRule`). -/
structure OptimizationRule where
  name : String
  description : String
  pattern : List NodeType
  replacement : List NodeType
  gas_savings : Nat
  implementation : String

/-- Association-list lookup, the model of `HashMap::get` for the gas tables
(keys are inserted once each, so first-match lookup agrees with the map). -/
def assocGet {κ : Type} [DecidableEq κ] (t : List (κ × Nat)) (k : κ) : Option Nat :=
  match t with
  | [] => none
  | p :: rest => if p.1 = k then some p.2 else assocGet rest k

/-- The gas cost table (`GasCostTable`). -/
structure GasCostTable where
  base_costs : List (NodeType × Nat)
  storage_costs : List (String × Nat)
  computation_costs : List (String × Nat)

namespace OptimizationEngine

/-- `OptimizationEngine::create_gas_cost_table`. -/
def create_gas_cost_table : GasCostTable :=
  { base_costs := [(.Start, 0), (.End, 0), (.State, 20000), (.Logic, 1),
                   (.Arithmetic, 3), (.External, 2600), (.Control, 1)]
    storage_costs := [("sstore", 20000), ("sload", 100), ("balance", 400)]
    computation_costs := [("add", 3), ("sub", 3), ("mul", 5), ("div", 5), ("mod", 5)] }

/-- `OptimizationEngine::calculate_node_specific_costs`.  The source's `match`
starts from `cost = 0` and adds a per-type surcharge; it has no arm for
`Start`/`End` (a non-exhaustiveness slip in the source), whose surcharge is
therefore the untouched initial `0`. -/
def calculate_node_specific_costs (node : Node) : Nat :=
  match node.node_type with
  | .State => 20000
  | .Arithmetic => 3
  | .Logic => 1
  | .External => 2600
  | .Control => 1
  | .Start => 0
  | .End => 0

/-- `OptimizationEngine::estimate_gas_usage`: per-node base cost (table
lookup) plus per-node surcharge, plus 10 gas per edge. -/
def estimate_gas_usage (g : Graph) : Nat :=
  (g.get_nodes.foldl
    (fun total_gas node =>
      (match assocGet create_gas_cost_table.base_costs node.node_type with
       | some base_cost => total_gas + base_cost
       | none => total_gas) + calculate_node_specific_costs node)
    0) + g.get_edges.length * 10

/-- `OptimizationEngine::find_matching_pattern`: first window of node-type
sequence `pattern` in node order, returning its node ids. -/
def find_matching_pattern (g : Graph) (pattern : List NodeType) : Option (List String) :=
  ((windowsOfLen pattern.length g.get_nodes).find?
    (fun w => w.map (fun n => n.node_type) = pattern)).map
    (fun w => w.map (fun n => n.id))

/-- `OptimizationEngine::create_optimization_rules`. -/
def create_optimization_rules : List OptimizationRule :=
  [ { name := "Batch Arithmetic Operations"
      description := "Combine multiple arithmetic operations into a single operation"
      pattern := [.Arithmetic, .Arithmetic]
      replacement := [.Arithmetic]
      gas_savings := 3
      implementation := "Use compound assignment operators (e.g., a += b instead of a = a + b)" },
    { name := "Optimize Storage Access"
      description := "Cache frequently accessed storage values"
      pattern := [.State, .Logic, .State]
      replacement := [.State, .Logic]
      gas_savings := 100
      implementation := "Store storage value in memory variable for multiple uses" },
    { name := "Reduce External Calls"
      description := "Cache external call results to avoid repeated calls"
      pattern := [.External, .Logic, .External]
      replacement := [.External, .Logic]
      gas_savings := 2600
      implementation := "Store external call result in state variable" },
    { name := "Optimize Control Flow"
      description := "Simplify nested control structures"
      pattern := [.Control, .Control]
      replacement := [.Control]
      gas_savings := 1
      implementation := "Combine multiple conditions into a single expression" } ]

/-- `OptimizationEngine::analyze_custom_optimizations`: the three aggregate
threshold heuristics (state batching, external-call caching, arithmetic
rewrites), in source order. -/
def analyze_custom_optimizations (g : Graph) : List OptimizationSuggestion :=
  (let state_nodes := g.get_nodes.filter (fun n => n.node_type = .State)
   if state_nodes.length > 5 then
     [ { title := "Reduce State Operations"
         description := "Consider batching state operations to reduce gas costs"
         estimated_gas_savings := (state_nodes.length - 5) * 5000
         nodes := state_nodes.map (fun n => n.id)
         implementation := "Batch multiple state updates into a single operation" } ]
   else []) ++
  (let external_nodes := g.get_nodes.filter (fun n => n.node_type = .External)
   if external_nodes.length > 3 then
     [ { title := "Optimize External Calls"
         description := "Consider caching external call results"
         estimated_gas_savings := (external_nodes.length - 3) * 1000
         nodes := external_nodes.map (fun n => n.id)
         implementation := "Cache external call results in state variables" } ]
   else []) ++
  (let arithmetic_nodes := g.get_nodes.filter (fun n => n.node_type = .Arithmetic)
   if arithmetic_nodes.length > 10 then
     [ { title := "Optimize Arithmetic Operations"
         description := "Consider using bit shifting for power-of-2 operations"
         estimated_gas_savings := arithmetic_nodes.length * 10
         nodes := arithmetic_nodes.map (fun n => n.id)
         implementation := "Replace multiplication/division by powers of 2 with bit shifts" } ]
   else [])

/-- `OptimizationEngine::generate_optimization_suggestions`: rewrite-rule
matches first, then the custom aggregate heuristics. -/
def generate_optimization_suggestions (g : Graph) : List OptimizationSuggestion :=
  (create_optimization_rules.filterMap (fun rule =>
    (find_matching_pattern g rule.pattern).map (fun matching_nodes =>
      { title := rule.name
        description := rule.description
        estimated_gas_savings := rule.gas_savings
        nodes := matching_nodes
        implementation := rule.implementation })))
  ++ analyze_custom_optimizations g

/-- `OptimizationEngine::optimize`: estimate, collect suggestions, total the
savings and saturating-subtract them from the estimate. -/
def optimize (g : Graph) : OptimizationResult :=
  let original_gas := estimate_gas_usage g
  let suggestions := generate_optimization_suggestions g
  let total_savings := (suggestions.map (fun s => s.estimated_gas_savings)).sum
  { original_gas_estimate := original_gas
    optimized_gas_estimate := original_gas - total_savings
    gas_savings := total_savings
    suggestions := suggestions
    modified_graph := none }

end OptimizationEngine

/-! ### Gas estimate closed form (C2) -/

/-- The per-node-type base cost as a total function: the contents of the
source's `base_costs` table. -/
def baseCost : NodeType → Nat
  | .Start => 0
  | .End => 0
  | .State => 20000
  | .Logic => 1
  | .Arithmetic => 3
  | .External => 2600
  | .Control => 1

/-- The base-cost table lookup always succeeds and returns `baseCost`. -/
theorem assocGet_base (t : NodeType) :
    assocGet OptimizationEngine.create_gas_cost_table.base_costs t = some (baseCost t) := by
  cases t <;> rfl

/-- The node loop of `estimate_gas_usage` accumulates base cost plus
surcharge for every node. -/
theorem gas_foldl_eq (l : List Node) (k : Nat) :
    l.foldl (fun total_gas node =>
      (match assocGet OptimizationEngine.create_gas_cost_table.base_costs node.node_type with
       | some base_cost => total_gas + base_cost
       | none => total_gas) + OptimizationEngine.calculate_node_specific_costs node) k
    = k + (l.map (fun n =>
        baseCost n.node_type + OptimizationEngine.calculate_node_specific_costs n)).sum := by
  induction l generalizing k with
  | nil => simp
  | cons a t ih =>
    rw [List.foldl_cons, ih]
    simp only [assocGet_base, List.map_cons, List.sum_cons]
    ring

/-- C2 (amended): (1) `estimate_gas_usage` is exactly the sum over nodes of
the per-type base cost plus the per-type surcharge, plus 10 gas per edge; and
(2) appending one `State` node raises the estimate by exactly `40000`
(`20000` base cost *plus* the `20000` SSTORE surcharge), not by roughly
`20000`. -/
theorem c2_gas_estimate_formula :
    (∀ g : Graph, OptimizationEngine.estimate_gas_usage g =
        (g.get_nodes.map (fun n =>
          baseCost n.node_type + OptimizationEngine.calculate_node_specific_costs n)).sum
        + 10 * g.get_edges.length) ∧
    (∀ (g : Graph) (n : Node), n.node_type = .State →
        OptimizationEngine.estimate_gas_usage { nodes := g.nodes ++ [n], edges := g.edges }
          = OptimizationEngine.estimate_gas_usage g + 40000) := by
  have hform : ∀ g : Graph, OptimizationEngine.estimate_gas_usage g =
      (g.get_nodes.map (fun n =>
        baseCost n.node_type + OptimizationEngine.calculate_node_specific_costs n)).sum
      + 10 * g.get_edges.length := by
    intro g
    unfold OptimizationEngine.estimate_gas_usage
    rw [gas_foldl_eq]
    omega
  refine ⟨hform, ?_⟩
  intro g n hstate
  rw [hform, hform]
  show ((g.nodes ++ [n]).map _).sum + 10 * g.edges.length = _
  rw [List.map_append, List.sum_append]
  simp only [List.map_cons, List.map_nil, List.sum_cons, List.sum_nil]
  rw [hstate]
  show _ + (baseCost .State + OptimizationEngine.calculate_node_specific_costs n + 0)
      + 10 * g.edges.length = _
  have hn : OptimizationEngine.calculate_node_specific_costs n = 20000 := by
    unfold OptimizationEngine.calculate_node_specific_costs
    rw [hstate]
  rw [hn, show baseCost .State = 20000 from rfl]
  show _ = (g.get_nodes.map _).sum + 10 * g.get_edges.length + 40000
  unfold Graph.get_nodes Graph.get_edges
  omega

/-- A single `State` node, used for the C2 concrete computations. -/
def c2StateNode : Node :=
  { id := "s1", node_type := .State, position := (0, 0), properties := [] }

/-- C2 counterexample: going from the empty graph to a graph with one `State`
node moves the estimate from `0` to `40000`: the increase is `40000`, which is
not `20000` — it is a full factor of two above it, because a `State` node pays
the `20000` base cost *and* the `20000` storage surcharge. -/
theorem c2_counterexample :
    OptimizationEngine.estimate_gas_usage { nodes := [c2StateNode], edges := [] } = 40000 ∧
    OptimizationEngine.estimate_gas_usage { nodes := [], edges := [] } = 0 ∧
    (40000 : Nat) ≠ 20000 ∧ 2 * 20000 ≤ 40000 := by
  refine ⟨rfl, rfl, by decide, by decide⟩

/-- C2 witness: the State-increment clause applied to the empty graph and a
concrete `State` node. -/
theorem c2_witness :
    c2StateNode.node_type = .State ∧
    OptimizationEngine.estimate_gas_usage { nodes := ([] : List Node) ++ [c2StateNode], edges := [] }
      = OptimizationEngine.estimate_gas_usage { nodes := [], edges := [] } + 40000 :=
  ⟨rfl, c2_gas_estimate_formula.2 { nodes := [], edges := [] } c2StateNode rfl⟩

/-! ### State-batching heuristic (C7) -/

/-- The number of `State`-typed nodes of a graph. -/
def stateNodeCount (g : Graph) : Nat :=
  (g.get_nodes.filter (fun n => n.node_type = .State)).length

/-- A graph with exactly six `State` nodes and nothing else. -/
def sixStateGraph : Graph :=
  { nodes := [ { id := "s1", node_type := .State, position := (0, 0), properties := [] },
               { id := "s2", node_type := .State, position := (1, 0), properties := [] },
               { id := "s3", node_type := .State, position := (2, 0), properties := [] },
               { id := "s4", node_type := .State, position := (3, 0), properties := [] },
               { id := "s5", node_type := .State, position := (4, 0), properties := [] },
               { id := "s6", node_type := .State, position := (5, 0), properties := [] } ]
    edges := [] }

/-- C7: (1) every graph with more than five `State` nodes receives a
"Reduce State Operations" suggestion whose estimated saving is
`(state_count − 5) × 5000`; and (2) on the graph with exactly six `State`
nodes and nothing else, `optimize` reports total `gas_savings = 5000` and that
suggestion is present. -/
theorem c7_state_batching :
    (∀ g : Graph, 5 < stateNodeCount g →
        ∃ s ∈ (OptimizationEngine.optimize g).suggestions,
          s.title = "Reduce State Operations" ∧
          s.estimated_gas_savings = (stateNodeCount g - 5) * 5000) ∧
    ((OptimizationEngine.optimize sixStateGraph).gas_savings = 5000 ∧
      ∃ s ∈ (OptimizationEngine.optimize sixStateGraph).suggestions,
        s.title = "Reduce State Operations" ∧ s.estimated_gas_savings = 5000) := by
  constructor
  · intro g hcount
    show ∃ s ∈ OptimizationEngine.generate_optimization_suggestions g, _
    unfold OptimizationEngine.generate_optimization_suggestions
      OptimizationEngine.analyze_custom_optimizations
    refine ⟨{ title := "Reduce State Operations"
              description := "Consider batching state operations to reduce gas costs"
              estimated_gas_savings := (stateNodeCount g - 5) * 5000
              nodes := (g.get_nodes.filter (fun n => n.node_type = .State)).map (fun n => n.id)
              implementation := "Batch multiple state updates into a single operation" },
      ?_, rfl, rfl⟩
    rw [List.mem_append]
    right
    rw [List.mem_append, List.mem_append]
    left; left
    rw [if_pos (by exact hcount)]
    exact List.mem_singleton.mpr rfl
  · constructor
    · decide
    · refine ⟨{ title := "Reduce State Operations"
                description := "Consider batching state operations to reduce gas costs"
                estimated_gas_savings := 5000
                nodes := ["s1", "s2", "s3", "s4", "s5", "s6"]
                implementation := "Batch multiple state updates into a single operation" },
        ?_, rfl, rfl⟩
      decide

/-- C7 witness: the general clause applied to the six-`State` graph. -/
theorem c7_witness :
    5 < stateNodeCount sixStateGraph ∧
    ∃ s ∈ (OptimizationEngine.optimize sixStateGraph).suggestions,
      s.title = "Reduce State Operations" ∧
      s.estimated_gas_savings = (stateNodeCount sixStateGraph - 5) * 5000 :=
  ⟨by decide, c7_state_batching.1 sixStateGraph (by decide)⟩

/-! ## `src/ai/validator.rs` — the rule-based structural validator -/

/-- Rule severity (`validator::RuleSeverity`).  The source declares exactly
these four variants; note that two entries of `create_security_rules` in the
source name a fifth variant `RuleSeverity::High` that the enum does not
declare (the file cannot compile as written), so the severity of those two
rules is taken as a parameter below. -/
inductive RuleSeverity where
  | Info
  | Warning
  | Error
  | Critical
deriving DecidableEq

/-- Rule type (`validator::RuleType`). -/
inductive RuleType where
  | Structure
  | Logic
  | Security
  | Performance

/-- Validation check result (`validator::ValidationCheckResult`). -/
structure ValidationCheckResult where
  passed : Bool
  message : String
  affected_nodes : List String

/-- Security check result (`validator::SecurityCheckResult`). -/
structure SecurityCheckResult where
  passed : Bool
  message : String
  affected_nodes : List String
  cve_reference : Option String
  mitigation : String

/-- A validation rule (`validator::ValidationRule`): name, description, type,
severity and a check function over the graph. -/
structure ValidationRule where
  name : String
  description : String
  rule_type : RuleType
  severity : RuleSeverity
  check : Graph → ValidationCheckResult

/-- A security rule (`validator::SecurityRule`). -/
structure SecurityRule where
  name : String
  description : String
  cve_reference : Option String
  severity : RuleSeverity
  check : Graph → SecurityCheckResult

/-- The validator's result (`ai::ValidationResult`). -/
structure ValidationResult where
  is_valid : Bool
  errors : List String
  warnings : List String
  info : List String
deriving DecidableEq

namespace RuleBasedValidator

/-- The outgoing-edge targets of `node_id`, in edge order: the ids the inner
`dfs` of `has_cycles` recurses into (`for edge in edges { if edge.source ==
*node_id { dfs(&edge.target, ...) } }`). -/
def succList (edges : List Edge) (node_id : String) : List String :=
  (edges.filter (fun e => e.source = node_id)).map (fun e => e.target)

/-- The recursive `dfs` of `has_cycles`, with its processing of one node
(`Sum.inl`) and of a successor list (`Sum.inr`) interleaved so that the
recursion is structural on an explicit fuel.  The state is the pair
`(visited, rec_stack)` of the source; the result's boolean is "cycle found".
Fuel exhaustion conservatively reports `true`, so every `false` result comes
from a genuinely completed search; `has_cycles` supplies enough fuel that the
sentinel is never reached (each level of nesting either consumes one entry of
a successor list or permanently marks a previously unvisited id as visited). -/
def dfs (edges : List Edge) : Nat → String ⊕ List String → List String → List String →
    Bool × List String × List String
  | 0, _, visited, rec_stack => (true, visited, rec_stack)
  | fuel + 1, Sum.inl node_id, visited, rec_stack =>
      if node_id ∈ rec_stack then (true, visited, rec_stack)
      else if node_id ∈ visited then (false, visited, rec_stack)
      else
        match dfs edges fuel (Sum.inr (succList edges node_id))
            (node_id :: visited) (node_id :: rec_stack) with
        | (true, v, s) => (true, v, s)
        | (false, v, s) => (false, v, s.erase node_id)
  | _ + 1, Sum.inr [], visited, rec_stack => (false, visited, rec_stack)
  | fuel + 1, Sum.inr (t :: ts), visited, rec_stack =>
      match dfs edges fuel (Sum.inl t) visited rec_stack with
      | (true, v, s) => (true, v, s)
      | (false, v, s) => dfs edges fuel (Sum.inr ts) v s

/-- The outer loop of `has_cycles`: root a DFS at every not-yet-visited node,
in node order, sharing the `visited`/`rec_stack` sets. -/
def has_cycles_loop (edges : List Edge) (fuel : Nat) :
    List Node → List String → List String → Bool
  | [], _, _ => false
  | node :: rest, visited, rec_stack =>
      if node.id ∈ visited then has_cycles_loop edges fuel rest visited rec_stack
      else
        match dfs edges fuel (Sum.inl node.id) visited rec_stack with
        | (true, _, _) => true
        | (false, v, s) => has_cycles_loop edges fuel rest v s

/-- Fuel that strictly dominates the depth of any call chain of `dfs` on this
graph: a chain alternates node entries (each inserting a fresh id, of which
there are at most `nodes + edges`) and successor-list steps (at most `edges + 1`
deep per node entry). -/
def dfsFuel (g : Graph) : Nat :=
  (g.get_nodes.length + g.get_edges.length + 1) * (g.get_edges.length + 2)

/-- `RuleBasedValidator::has_cycles`. -/
def has_cycles (g : Graph) : Bool :=
  has_cycles_loop g.get_edges (dfsFuel g) g.get_nodes [] []

/-- The BFS work-list of `find_unreachable_nodes` (`VecDeque` popped from the
front, pushed at the back); one fuel unit per popped entry, with enough fuel
that the queue always empties (each push accompanies marking a fresh id
reachable). -/
def bfs_reach (edges : List Edge) : Nat → List String → List String → List String
  | 0, _, reachable => reachable
  | _ + 1, [], reachable => reachable
  | fuel + 1, current :: queue, reachable =>
      let stepped := edges.foldl
        (fun (acc : List String × List String) e =>
          if e.source = current ∧ e.target ∉ acc.1
          then (acc.1 ++ [e.target], acc.2 ++ [e.target])
          else acc)
        (reachable, queue)
      bfs_reach edges fuel stepped.2 stepped.1

/-- `RuleBasedValidator::find_unreachable_nodes`: BFS from all Start nodes,
then list the ids never reached, in node order. -/
def find_unreachable_nodes (g : Graph) : List String :=
  let start_ids := (g.get_nodes.filter (fun n => n.node_type = .Start)).map (fun n => n.id)
  let reachable := bfs_reach g.get_edges
    (g.get_nodes.length + g.get_edges.length + 1) start_ids start_ids
  (g.get_nodes.filter (fun n => n.id ∉ reachable)).map (fun n => n.id)

/-- The required-incoming-degree table of `find_missing_inputs` (the `_ => 0`
arm of the source covers `Start`). -/
def required_inputs : NodeType → Nat
  | .Logic => 2
  | .Arithmetic => 2
  | .State => 1
  | .External => 1
  | .Control => 1
  | .End => 1
  | .Start => 0

/-- `RuleBasedValidator::find_missing_inputs`: every non-Start node whose
incoming-edge count is below its type's required degree, in node order. -/
def find_missing_inputs (g : Graph) : List String :=
  (g.get_nodes.filter (fun node =>
    ¬node.node_type = .Start ∧
      (g.get_edges.filter (fun e => e.target = node.id)).length
        < required_inputs node.node_type)).map (fun n => n.id)

/-- `RuleBasedValidator::has_reentrancy_risk`: some edge joins an `External`
node to a `State` node (dangling endpoints skipped). -/
def has_reentrancy_risk (g : Graph) : Bool :=
  g.get_edges.any (fun e =>
    match g.get_nodes.find? (fun n => n.id = e.source),
        g.get_nodes.find? (fun n => n.id = e.target) with
    | some s, some t => s.node_type = .External && t.node_type = .State
    | _, _ => false)

/-- `RuleBasedValidator::has_access_control_issues`: more than three `State`
nodes. -/
def has_access_control_issues (g : Graph) : Bool :=
  (g.get_nodes.filter (fun n => n.node_type = .State)).length > 3

/-- `RuleBasedValidator::has_unchecked_arithmetic`: some edge joins an
`Arithmetic` node to a `State` node. -/
def has_unchecked_arithmetic (g : Graph) : Bool :=
  g.get_edges.any (fun e =>
    match g.get_nodes.find? (fun n => n.id = e.source),
        g.get_nodes.find? (fun n => n.id = e.target) with
    | some s, some t => s.node_type = .Arithmetic && t.node_type = .State
    | _, _ => false)

/-- First validation rule: no cycles (severity `Error`). -/
def noCyclesRule : ValidationRule :=
  { name := "No Cycles"
    description := "Contract should not have cycles in execution flow"
    rule_type := .Structure
    severity := .Error
    check := fun graph =>
      if has_cycles graph then
        { passed := false
          message := "Contract contains cycles which may cause infinite loops"
          affected_nodes := [] }
      else
        { passed := true
          message := "No cycles detected"
          affected_nodes := [] } }

/-- Second validation rule: reachability (severity `Warning`). -/
def noUnreachableRule : ValidationRule :=
  { name := "No Unreachable Nodes"
    description := "All nodes should be reachable from the start node"
    rule_type := .Structure
    severity := .Warning
    check := fun graph =>
      let unreachable := find_unreachable_nodes graph
      if unreachable.isEmpty then
        { passed := true
          message := "All nodes are reachable"
          affected_nodes := [] }
      else
        { passed := false
          message := "Found " ++ toString unreachable.length ++ " unreachable nodes"
          affected_nodes := unreachable } }

/-- Third validation rule: required inputs connected (severity `Error`). -/
def allInputsConnectedRule : ValidationRule :=
  { name := "All Inputs Connected"
    description := "All required inputs should be connected"
    rule_type := .Logic
    severity := .Error
    check := fun graph =>
      let missing := find_missing_inputs graph
      if missing.isEmpty then
        { passed := true
          message := "All required inputs are connected"
          affected_nodes := [] }
      else
        { passed := false
          message := "Found " ++ toString missing.length ++ " nodes with missing inputs"
          affected_nodes := missing } }

/-- Fourth validation rule: exactly one Start and one End node (severity
`Error`). -/
def startEndRule : ValidationRule :=
  { name := "Start and End Nodes"
    description := "Contract should have exactly one start and one end node"
    rule_type := .Structure
    severity := .Error
    check := fun graph =>
      let start_nodes := graph.get_nodes.filter (fun n => n.node_type = .Start)
      let end_nodes := graph.get_nodes.filter (fun n => n.node_type = .End)
      if start_nodes.length = 1 ∧ end_nodes.length = 1 then
        { passed := true
          message := "Contract has proper start and end nodes"
          affected_nodes := [] }
      else
        { passed := false
          message := "Expected 1 start and 1 end node, found "
            ++ toString start_nodes.length ++ " start and "
            ++ toString end_nodes.length ++ " end"
          affected_nodes := [] } }

/-- Fifth validation rule: complexity threshold (severity `Warning`). -/
def reasonableComplexityRule : ValidationRule :=
  { name := "Reasonable Complexity"
    description := "Contract should not be overly complex"
    rule_type := .Performance
    severity := .Warning
    check := fun graph =>
      let node_count := graph.get_nodes.length
      if node_count ≤ 50 then
        { passed := true
          message := "Contract has " ++ toString node_count
            ++ " nodes (within reasonable limits)"
          affected_nodes := [] }
      else
        { passed := false
          message := "Contract has " ++ toString node_count
            ++ " nodes (consider breaking into smaller contracts)"
          affected_nodes := [] } }

/-- `RuleBasedValidator::create_validation_rules`: the five structural rules,
in source order. -/
def create_validation_rules : List ValidationRule :=
  [noCyclesRule, noUnreachableRule, allInputsConnectedRule, startEndRule,
   reasonableComplexityRule]

/-- `RuleBasedValidator::create_security_rules`.  The source marks the second
and third rules with the non-existent `RuleSeverity::High`; that severity is
abstracted as the parameter `high`. -/
def reentrancyProtectionRule : SecurityRule :=
  { name := "Reentrancy Protection"
    description := "External calls should not be followed by state changes"
    cve_reference := some "CVE-2016-10709"
    severity := .Critical
    check := fun graph =>
      if has_reentrancy_risk graph then
        { passed := false
          message := "Potential reentrancy vulnerability detected"
          affected_nodes := []
          cve_reference := some "CVE-2016-10709"
          mitigation := "Update state before making external calls" }
      else
        { passed := true
          message := "No reentrancy vulnerabilities detected"
          affected_nodes := []
          cve_reference := none
          mitigation := "" } }

/-- Second security rule; its severity is the source's non-existent
`RuleSeverity::High`, taken as a parameter. -/
def accessControlRule (high : RuleSeverity) : SecurityRule :=
  { name := "Access Control"
    description := "State modifications should have proper access controls"
    cve_reference := none
    severity := high
    check := fun graph =>
      if has_access_control_issues graph then
        { passed := false
          message := "Missing access controls on state modifications"
          affected_nodes := []
          cve_reference := none
          mitigation := "Add access control checks before state modifications" }
      else
        { passed := true
          message := "Access controls appear to be in place"
          affected_nodes := []
          cve_reference := none
          mitigation := "" } }

/-- Third security rule; severity likewise parameterised. -/
def arithmeticSafetyRule (high : RuleSeverity) : SecurityRule :=
  { name := "Arithmetic Safety"
    description := "Arithmetic operations should have overflow checks"
    cve_reference := some "CVE-2018-10299"
    severity := high
    check := fun graph =>
      if has_unchecked_arithmetic graph then
        { passed := false
          message := "Unchecked arithmetic operations detected"
          affected_nodes := []
          cve_reference := some "CVE-2018-10299"
          mitigation := "Add overflow checks or use SafeMath library" }
      else
        { passed := true
          message := "Arithmetic operations appear to be safe"
          affected_nodes := []
          cve_reference := none
          mitigation := "" } }

/-- `RuleBasedValidator::create_security_rules`, with the unrepresentable
`High` severity abstracted as `high`. -/
def create_security_rules (high : RuleSeverity) : List SecurityRule :=
  [reentrancyProtectionRule, accessControlRule high, arithmeticSafetyRule high]

/-- `RuleBasedValidator::validate`: run the validation rules then the
security rules, bucketing each failing rule's message by severity (`Error`
and `Critical` into `errors`, Critical with a `CRITICAL: ` prefix); finally
`is_valid = errors.is_empty()`.  The accumulator is
`(errors, warnings, info)`; this is the body of the validation-rule loop. -/
def apply_validation_rule (g : Graph)
    (acc : List String × List String × List String) (rule : ValidationRule) :
    List String × List String × List String :=
  let result := rule.check g
  if result.passed then acc
  else
    let message := rule.name ++ ": " ++ result.message
    match rule.severity with
    | .Info => (acc.1, acc.2.1, acc.2.2 ++ [message])
    | .Warning => (acc.1, acc.2.1 ++ [message], acc.2.2)
    | .Error => (acc.1 ++ [message], acc.2.1, acc.2.2)
    | .Critical => (acc.1 ++ ["CRITICAL: " ++ message], acc.2.1, acc.2.2)

/-- The body of the security-rule loop of `validate` (note the source
duplicates the severity `match` in the two CVE branches). -/
def apply_security_rule (g : Graph)
    (acc : List String × List String × List String) (rule : SecurityRule) :
    List String × List String × List String :=
  let result := rule.check g
  if result.passed then acc
  else
    let message := "SECURITY: " ++ rule.name ++ " - " ++ result.message
    match result.cve_reference with
    | some cve =>
        let message := message ++ " (CVE: " ++ cve ++ ")"
        match rule.severity with
        | .Info => (acc.1, acc.2.1, acc.2.2 ++ [message])
        | .Warning => (acc.1, acc.2.1 ++ [message], acc.2.2)
        | .Error => (acc.1 ++ [message], acc.2.1, acc.2.2)
        | .Critical => (acc.1 ++ ["CRITICAL: " ++ message], acc.2.1, acc.2.2)
    | none =>
        match rule.severity with
        | .Info => (acc.1, acc.2.1, acc.2.2 ++ [message])
        | .Warning => (acc.1, acc.2.1 ++ [message], acc.2.2)
        | .Error => (acc.1 ++ [message], acc.2.1, acc.2.2)
        | .Critical => (acc.1 ++ ["CRITICAL: " ++ message], acc.2.1, acc.2.2)

def validate (validation_rules : List ValidationRule)
    (security_rules : List SecurityRule) (g : Graph) : ValidationResult :=
  let acc1 := validation_rules.foldl (apply_validation_rule g) ([], [], [])
  let acc2 := security_rules.foldl (apply_security_rule g) acc1
  { is_valid := acc2.1.isEmpty
    errors := acc2.1
    warnings := acc2.2.1
    info := acc2.2.2 }

/-- `RuleBasedValidator::new().validate(g)`: validate with the rule tables
built by the constructor, the unrepresentable `High` severity abstracted. -/
def new_validate (high : RuleSeverity) (g : Graph) : ValidationResult :=
  validate create_validation_rules (create_security_rules high) g

end RuleBasedValidator

/-! ### Cycle-detection completeness (C5)

The proof follows the classic finishing-order argument: whenever the DFS
returns `false`, the ids already finished (visited and popped off the
recursion stack) can be arranged in a list, most recently finished first,
along which every edge points strictly towards earlier-finished ids; such a
list can carry no cycle. -/

/-- `v ∈ succList edges u` is exactly the step relation. -/
theorem mem_succList {edges : List Edge} {u v : String} :
    v ∈ RuleBasedValidator.succList edges u ↔ EdgeStep edges u v := by
  unfold RuleBasedValidator.succList EdgeStep
  simp only [List.mem_map, List.mem_filter, decide_eq_true_eq]
  constructor
  · rintro ⟨e, ⟨he, hsrc⟩, rfl⟩
    exact ⟨e, he, hsrc, rfl⟩
  · rintro ⟨e, he, hsrc, rfl⟩
    exact ⟨e, ⟨he, hsrc⟩, rfl⟩

/-- A finish list: every edge out of an entry lands strictly later in the
list (i.e. on an id finished strictly earlier). -/
def Ranked (edges : List Edge) : List String → Prop
  | [] => True
  | u :: rest => (∀ v, EdgeStep edges u v → v ∈ rest) ∧ Ranked edges rest

/-- A ranked list is closed under the step relation. -/
theorem Ranked.step_mem {edges : List Edge} :
    ∀ {F : List String}, Ranked edges F → ∀ {a v : String},
      a ∈ F → EdgeStep edges a v → v ∈ F := by
  intro F
  induction F with
  | nil => intro _ a v ha; cases ha
  | cons u rest ih =>
    rintro ⟨hsucc, hrest⟩ a v ha hav
    rcases List.mem_cons.mp ha with rfl | ha
    · exact List.mem_cons_of_mem _ (hsucc v hav)
    · exact List.mem_cons_of_mem _ (ih hrest ha hav)

/-- A ranked list is closed under reachability. -/
theorem Ranked.reach_mem {edges : List Edge} {F : List String}
    (hF : Ranked edges F) {a b : String} (ha : a ∈ F)
    (hab : Relation.ReflTransGen (EdgeStep edges) a b) : b ∈ F := by
  induction hab with
  | refl => exact ha
  | tail _ hstep ih => exact hF.step_mem ih hstep

/-- No id occurring in a duplicate-free ranked list lies on a directed cycle. -/
theorem Ranked.no_cycle {edges : List Edge} :
    ∀ {F : List String}, Ranked edges F → F.Nodup → ∀ {a : String},
      a ∈ F → ¬ Relation.TransGen (EdgeStep edges) a a := by
  intro F
  induction F with
  | nil => intro _ _ a ha; cases ha
  | cons u rest ih =>
    rintro ⟨hsucc, hrest⟩ hnd a ha hcyc
    rcases List.mem_cons.mp ha with rfl | ha
    · obtain ⟨b, hab, hba⟩ := Relation.TransGen.head'_iff.mp hcyc
      have hb : b ∈ rest := hsucc b hab
      have : a ∈ rest := Ranked.reach_mem hrest hb hba
      exact (List.nodup_cons.mp hnd).1 this
    · exact ih hrest (List.nodup_cons.mp hnd).2 ha hcyc

/-- The DFS state invariant: `visited` is exactly the union of the recursion
stack and a ghost finish list `F` (most recently finished first), the stack
and finish list are duplicate-free and disjoint, and `F` is ranked. -/
structure DfsInv (edges : List Edge) (visited rec_stack F : List String) : Prop where
  mem_iff : ∀ x, x ∈ visited ↔ (x ∈ rec_stack ∨ x ∈ F)
  nodup_stack : rec_stack.Nodup
  nodup_fin : F.Nodup
  disj : ∀ x ∈ rec_stack, x ∉ F
  ranked : Ranked edges F

/-- Main DFS lemma: a `false` return restores the recursion stack and extends
the finish list, preserving the invariant; the processed node (resp. every
processed successor) ends up finished. -/
theorem dfs_false_inv (edges : List Edge) :
    ∀ (fuel : Nat) (job : String ⊕ List String) (visited rec_stack v' s' F : List String),
      RuleBasedValidator.dfs edges fuel job visited rec_stack = (false, v', s') →
      DfsInv edges visited rec_stack F →
      s' = rec_stack ∧
      ∃ F', DfsInv edges v' rec_stack F' ∧ (∃ pre, F' = pre ++ F) ∧
        (∀ u, job = Sum.inl u → u ∈ F') ∧
        (∀ ts, job = Sum.inr ts → ∀ t ∈ ts, t ∈ F') := by
  intro fuel
  induction fuel with
  | zero =>
    intro job visited rec_stack v' s' F h _
    simp [RuleBasedValidator.dfs] at h
  | succ fuel ih =>
    intro job visited rec_stack v' s' F h hinv
    cases job with
    | inl u =>
      simp only [RuleBasedValidator.dfs] at h
      by_cases hstk : u ∈ rec_stack
      · rw [if_pos hstk] at h
        simp at h
      · rw [if_neg hstk] at h
        by_cases hvis : u ∈ visited
        · rw [if_pos hvis] at h
          injection h with _ h2
          injection h2 with hv hs
          subst hv; subst hs
          refine ⟨rfl, F, hinv, ⟨[], rfl⟩, ?_, ?_⟩
          · intro u' hu'
            injection hu' with hu'
            subst hu'
            rcases (hinv.mem_iff u).mp hvis with h | h
            · exact absurd h hstk
            · exact h
          · intro ts hts
            exact Sum.noConfusion hts
        · rw [if_neg hvis] at h
          rcases hdi : RuleBasedValidator.dfs edges fuel
              (Sum.inr (RuleBasedValidator.succList edges u))
              (u :: visited) (u :: rec_stack) with ⟨b, v2, s2⟩
          rw [hdi] at h
          cases b with
          | true => simp at h
          | false =>
            injection h with _ h2
            injection h2 with hv hs
            subst hv
            have hinner : DfsInv edges (u :: visited) (u :: rec_stack) F := by
              refine ⟨?_, ?_, hinv.nodup_fin, ?_, hinv.ranked⟩
              · intro x
                rw [List.mem_cons, List.mem_cons, hinv.mem_iff x, or_assoc]
              · exact List.nodup_cons.mpr ⟨hstk, hinv.nodup_stack⟩
              · intro x hx
                rcases List.mem_cons.mp hx with rfl | hx
                · intro hxF
                  exact hvis ((hinv.mem_iff x).mpr (Or.inr hxF))
                · exact hinv.disj x hx
            obtain ⟨hs2, F₂, hinv₂, ⟨pre₂, hpre₂⟩, -, hts₂⟩ :=
              ih _ _ _ _ _ _ hdi hinner
            subst hs2
            have hserase : (u :: rec_stack).erase u = rec_stack :=
              List.erase_cons_head u rec_stack
            have huF₂ : u ∉ F₂ := hinv₂.disj u (List.mem_cons_self u rec_stack)
            refine ⟨by rw [← hs, hserase], u :: F₂, ?_, ⟨u :: pre₂, by rw [hpre₂]; rfl⟩,
              ?_, ?_⟩
            · refine ⟨?_, hinv.nodup_stack, ?_, ?_, ?_, ?_⟩
              · intro x
                rw [hinv₂.mem_iff x, List.mem_cons, List.mem_cons]
                constructor
                · rintro (⟨rfl | hx⟩ | hx)
                  · exact Or.inr (Or.inl rfl)
                  · exact Or.inl hx
                  · exact Or.inr (Or.inr hx)
                · rintro (hx | ⟨rfl | hx⟩)
                  · exact Or.inl (Or.inr hx)
                  · exact Or.inl (Or.inl rfl)
                  · exact Or.inr hx
              · exact List.nodup_cons.mpr ⟨huF₂, hinv₂.nodup_fin⟩
              · intro x hx
                rw [List.mem_cons]
                rintro (rfl | hxF)
                · exact hstk hx
                · exact hinv₂.disj x (List.mem_cons_of_mem u hx) hxF
              · intro v hv
                exact hts₂ _ rfl v (mem_succList.mpr hv)
              · exact hinv₂.ranked
            · intro u' hu'
              injection hu' with hu'
              subst hu'
              exact List.mem_cons_self u F₂
            · intro ts hts
              exact Sum.noConfusion hts
    | inr ts =>
      cases ts with
      | nil =>
        simp only [RuleBasedValidator.dfs] at h
        injection h with _ h2
        injection h2 with hv hs
        subst hv; subst hs
        refine ⟨rfl, F, hinv, ⟨[], rfl⟩, ?_, ?_⟩
        · intro u hu
          exact Sum.noConfusion hu
        · intro ts0 hts0 t ht
          injection hts0 with hts0
          subst hts0
          cases ht
      | cons t ts =>
        simp only [RuleBasedValidator.dfs] at h
        rcases hd1 : RuleBasedValidator.dfs edges fuel (Sum.inl t) visited rec_stack
          with ⟨b1, v1, s1⟩
        rw [hd1] at h
        cases b1 with
        | true => simp at h
        | false =>
          obtain ⟨hs1, F₁, hinv₁, ⟨pre₁, hpre₁⟩, htF₁, -⟩ :=
            ih _ _ _ _ _ _ hd1 hinv
          subst hs1
          obtain ⟨hs', F₂, hinv₂, ⟨pre₂, hpre₂⟩, -, hts₂⟩ :=
            ih _ _ _ _ _ _ h hinv₁
          have htF₂ : t ∈ F₂ := by
            rw [hpre₂]
            exact List.mem_append_right pre₂ (htF₁ t rfl)
          refine ⟨hs', F₂, hinv₂, ⟨pre₂ ++ pre₁, by rw [hpre₂, hpre₁, List.append_assoc]⟩,
            ?_, ?_⟩
          · intro u hu
            exact Sum.noConfusion hu
          · intro ts0 hts0 t' ht'
            injection hts0 with hts0
            subst hts0
            rcases List.mem_cons.mp ht' with rfl | ht'
            · exact htF₂
            · exact hts₂ ts rfl t' ht'

/-- Outer-loop lemma: if `has_cycles_loop` reports no cycle, every listed
node ends up on a single duplicate-free ranked finish list. -/
theorem has_cycles_loop_false (edges : List Edge) (fuel : Nat) :
    ∀ (nodes : List Node) (visited F : List String),
      RuleBasedValidator.has_cycles_loop edges fuel nodes visited [] = false →
      DfsInv edges visited [] F →
      ∃ v' F', DfsInv edges v' [] F' ∧ (∃ pre, F' = pre ++ F) ∧
        ∀ n ∈ nodes, n.id ∈ F' := by
  intro nodes
  induction nodes with
  | nil =>
    intro visited F h hinv
    exact ⟨visited, F, hinv, ⟨[], rfl⟩, by simp⟩
  | cons nd rest ihn =>
    intro visited F h hinv
    simp only [RuleBasedValidator.has_cycles_loop] at h
    by_cases hv : nd.id ∈ visited
    · rw [if_pos hv] at h
      obtain ⟨v', F', hinv', ⟨pre, hpre⟩, hall⟩ := ihn _ _ h hinv
      refine ⟨v', F', hinv', ⟨pre, hpre⟩, ?_⟩
      intro n hn
      rcases List.mem_cons.mp hn with rfl | hn
      · rcases (hinv.mem_iff n.id).mp hv with hc | hc
        · cases hc
        · rw [hpre]
          exact List.mem_append_right pre hc
      · exact hall n hn
    · rw [if_neg hv] at h
      rcases hd : RuleBasedValidator.dfs edges fuel (Sum.inl nd.id) visited []
        with ⟨b, v1, s1⟩
      rw [hd] at h
      cases b with
      | true => cases h
      | false =>
        obtain ⟨hs1, F₁, hinv₁, ⟨pre₁, hpre₁⟩, hidF₁, -⟩ :=
          dfs_false_inv edges fuel _ _ _ _ _ _ hd hinv
        subst hs1
        obtain ⟨v', F', hinv', ⟨pre₂, hpre₂⟩, hall⟩ := ihn _ _ h hinv₁
        refine ⟨v', F', hinv',
          ⟨pre₂ ++ pre₁, by rw [hpre₂, hpre₁, List.append_assoc]⟩, ?_⟩
        intro n hn
        rcases List.mem_cons.mp hn with rfl | hn
        · rw [hpre₂]
          exact List.mem_append_right pre₂ (hidF₁ n.id rfl)
        · exact hall n hn

/-- C5 (amended): for every graph containing a directed edge cycle that
passes through the id of one of the graph's *nodes*, `has_cycles` returns
`true` — independent of the order in which nodes are taken as DFS roots and
of reachability from any `Start` node.  (The original claim, quantifying over
cycles formed by edges alone, fails when every id on the cycle is dangling:
see the counterexample.) -/
theorem c5_cycle_detected (g : Graph) (v : String)
    (hv : ∃ n ∈ g.get_nodes, n.id = v)
    (hcyc : Relation.TransGen (EdgeStep g.get_edges) v v) :
    RuleBasedValidator.has_cycles g = true := by
  by_contra hfalse
  rw [Bool.not_eq_true] at hfalse
  unfold RuleBasedValidator.has_cycles at hfalse
  have hinv0 : DfsInv g.get_edges [] [] [] := by
    refine ⟨by simp, List.nodup_nil, List.nodup_nil, by simp, trivial⟩
  obtain ⟨v', F', hinv', -, hall⟩ :=
    has_cycles_loop_false g.get_edges (RuleBasedValidator.dfsFuel g)
      g.get_nodes [] [] hfalse hinv0
  obtain ⟨n, hn, rfl⟩ := hv
  exact Ranked.no_cycle hinv'.ranked hinv'.nodup_fin (hall n hn) hcyc

/-- A two-edge cycle `A → B → A` between ids that are not nodes of any graph
using this edge list. -/
def c5Edges : List Edge :=
  [ { id := "e1", source := "A", target := "B", source_handle := none, target_handle := none },
    { id := "e2", source := "B", target := "A", source_handle := none, target_handle := none } ]

/-- C5 counterexample: a graph whose edge list contains the cycle
`A → B → A` while its node collection is empty.  The cycle is present among
the edges, yet `has_cycles` returns `false`, because the DFS only roots at
listed nodes.  This refutes the claim as stated for graphs whose cycle runs
through dangling edge endpoints. -/
theorem c5_counterexample :
    EdgeStep c5Edges "A" "B" ∧ EdgeStep c5Edges "B" "A" ∧
    RuleBasedValidator.has_cycles { nodes := [], edges := c5Edges } = false := by
  refine ⟨by decide, by decide, rfl⟩

/-- The same two-edge cycle with `A` and `B` present as nodes. -/
def c5CycleGraph : Graph :=
  { nodes := [ { id := "A", node_type := .Logic, position := (0, 0), properties := [] },
               { id := "B", node_type := .Logic, position := (1, 0), properties := [] } ]
    edges := c5Edges }

/-- C5 witness: the amended theorem applied to a concrete two-node cycle. -/
theorem c5_witness :
    (∃ n ∈ c5CycleGraph.get_nodes, n.id = "A") ∧
    Relation.TransGen (EdgeStep c5CycleGraph.get_edges) "A" "A" ∧
    RuleBasedValidator.has_cycles c5CycleGraph = true := by
  have h1 : EdgeStep c5CycleGraph.get_edges "A" "B" := by decide
  have h2 : EdgeStep c5CycleGraph.get_edges "B" "A" := by decide
  have hcyc : Relation.TransGen (EdgeStep c5CycleGraph.get_edges) "A" "A" :=
    Relation.TransGen.head h1 (Relation.TransGen.single h2)
  exact ⟨by decide, hcyc, c5_cycle_detected c5CycleGraph "A" (by decide) hcyc⟩

/-! ### Severity-bucket characterisation of `validate` (C1, C6) -/

namespace RuleBasedValidator

/-- The error messages a single validation rule contributes. -/
def validationErr (g : Graph) (rule : ValidationRule) : List String :=
  if (rule.check g).passed then []
  else match rule.severity with
    | .Error => [rule.name ++ ": " ++ (rule.check g).message]
    | .Critical => ["CRITICAL: " ++ (rule.name ++ ": " ++ (rule.check g).message)]
    | _ => []

/-- The warning messages a single validation rule contributes. -/
def validationWarn (g : Graph) (rule : ValidationRule) : List String :=
  if (rule.check g).passed then []
  else match rule.severity with
    | .Warning => [rule.name ++ ": " ++ (rule.check g).message]
    | _ => []

/-- The info messages a single validation rule contributes. -/
def validationInfo (g : Graph) (rule : ValidationRule) : List String :=
  if (rule.check g).passed then []
  else match rule.severity with
    | .Info => [rule.name ++ ": " ++ (rule.check g).message]
    | _ => []

/-- The full message text of a failing security rule (with the optional CVE
suffix). -/
def securityMessage (g : Graph) (rule : SecurityRule) : String :=
  match (rule.check g).cve_reference with
  | some cve => "SECURITY: " ++ rule.name ++ " - " ++ (rule.check g).message
      ++ " (CVE: " ++ cve ++ ")"
  | none => "SECURITY: " ++ rule.name ++ " - " ++ (rule.check g).message

/-- The error messages a single security rule contributes. -/
def securityErr (g : Graph) (rule : SecurityRule) : List String :=
  if (rule.check g).passed then []
  else match rule.severity with
    | .Error => [securityMessage g rule]
    | .Critical => ["CRITICAL: " ++ securityMessage g rule]
    | _ => []

/-- The warning messages a single security rule contributes. -/
def securityWarn (g : Graph) (rule : SecurityRule) : List String :=
  if (rule.check g).passed then []
  else match rule.severity with
    | .Warning => [securityMessage g rule]
    | _ => []

/-- The info messages a single security rule contributes. -/
def securityInfo (g : Graph) (rule : SecurityRule) : List String :=
  if (rule.check g).passed then []
  else match rule.severity with
    | .Info => [securityMessage g rule]
    | _ => []

/-- One validation-loop step appends each rule's buckets. -/
theorem apply_validation_rule_eq (g : Graph)
    (acc : List String × List String × List String) (rule : ValidationRule) :
    apply_validation_rule g acc rule =
      (acc.1 ++ validationErr g rule, acc.2.1 ++ validationWarn g rule,
        acc.2.2 ++ validationInfo g rule) := by
  unfold apply_validation_rule validationErr validationWarn validationInfo
  by_cases hp : (rule.check g).passed
  · simp [hp]
  · rw [if_neg (by simpa using hp), if_neg hp, if_neg hp, if_neg hp]
    cases rule.severity <;> simp

/-- One security-loop step appends each rule's buckets. -/
theorem apply_security_rule_eq (g : Graph)
    (acc : List String × List String × List String) (rule : SecurityRule) :
    apply_security_rule g acc rule =
      (acc.1 ++ securityErr g rule, acc.2.1 ++ securityWarn g rule,
        acc.2.2 ++ securityInfo g rule) := by
  unfold apply_security_rule securityErr securityWarn securityInfo securityMessage
  by_cases hp : (rule.check g).passed
  · simp [hp]
  · rw [if_neg (by simpa using hp), if_neg hp, if_neg hp, if_neg hp]
    rcases hcve : (rule.check g).cve_reference with - | cve <;>
      cases rule.severity <;> simp

end RuleBasedValidator

/-- Folding a bucket-appending step function appends the concatenation of
the per-element buckets. -/
theorem foldl_buckets {ρ : Type} (l : List ρ)
    (f : (List String × List String × List String) → ρ →
      (List String × List String × List String))
    (es ws infos : ρ → List String)
    (hf : ∀ acc r, f acc r = (acc.1 ++ es r, acc.2.1 ++ ws r, acc.2.2 ++ infos r)) :
    ∀ e w i, l.foldl f (e, w, i)
      = (e ++ l.flatMap es, w ++ l.flatMap ws, i ++ l.flatMap infos) := by
  induction l with
  | nil => intro e w i; simp
  | cons a t ih =>
    intro e w i
    rw [List.foldl_cons, hf]
    show List.foldl f (e ++ es a, w ++ ws a, i ++ infos a) t = _
    rw [ih]
    simp [List.append_assoc]

/-- Closed form of `validate`: each bucket is the concatenation of what each
rule contributes, validation rules first; `is_valid` is emptiness of the
error bucket. -/
theorem validate_eq (vrules : List ValidationRule) (srules : List SecurityRule)
    (g : Graph) :
    RuleBasedValidator.validate vrules srules g =
      { is_valid := (vrules.flatMap (RuleBasedValidator.validationErr g)
            ++ srules.flatMap (RuleBasedValidator.securityErr g)).isEmpty
        errors := vrules.flatMap (RuleBasedValidator.validationErr g)
            ++ srules.flatMap (RuleBasedValidator.securityErr g)
        warnings := vrules.flatMap (RuleBasedValidator.validationWarn g)
            ++ srules.flatMap (RuleBasedValidator.securityWarn g)
        info := vrules.flatMap (RuleBasedValidator.validationInfo g)
            ++ srules.flatMap (RuleBasedValidator.securityInfo g) } := by
  unfold RuleBasedValidator.validate
  simp only
  rw [foldl_buckets vrules _ _ _ _ (RuleBasedValidator.apply_validation_rule_eq g)]
  simp only [List.nil_append]
  rw [foldl_buckets srules _ _ _ _ (RuleBasedValidator.apply_security_rule_eq g)]

/-- A validation rule contributes no error message exactly when it passes or
its severity is neither `Error` nor `Critical`. -/
theorem validationErr_eq_nil (g : Graph) (rule : ValidationRule) :
    RuleBasedValidator.validationErr g rule = [] ↔
      ((rule.check g).passed = false →
        rule.severity ≠ .Error ∧ rule.severity ≠ .Critical) := by
  unfold RuleBasedValidator.validationErr
  by_cases hp : (rule.check g).passed
  · simp [hp]
  · rw [if_neg hp]
    rw [Bool.not_eq_true] at hp
    cases hsev : rule.severity <;> simp [hp]

/-- A security rule contributes no error message exactly when it passes or
its severity is neither `Error` nor `Critical`. -/
theorem securityErr_eq_nil (g : Graph) (rule : SecurityRule) :
    RuleBasedValidator.securityErr g rule = [] ↔
      ((rule.check g).passed = false →
        rule.severity ≠ .Error ∧ rule.severity ≠ .Critical) := by
  unfold RuleBasedValidator.securityErr
  by_cases hp : (rule.check g).passed
  · simp [hp]
  · rw [if_neg hp]
    rw [Bool.not_eq_true] at hp
    cases hsev : rule.severity <;> simp [hp]

/-- C1: for every graph and every validator rule configuration (this covers
the rule tables `RuleBasedValidator::new` builds, whatever severity its two
ill-typed `High` entries are given), `validate` returns `is_valid = true`
exactly when no rule of severity `Error` or `Critical` failed; failing rules
of severity `Warning` or `Info` never affect validity. -/
theorem c1_severity_aggregation (vrules : List ValidationRule)
    (srules : List SecurityRule) (g : Graph) :
    (RuleBasedValidator.validate vrules srules g).is_valid = true ↔
      ((∀ r ∈ vrules, (r.check g).passed = false →
          r.severity ≠ .Error ∧ r.severity ≠ .Critical) ∧
       (∀ r ∈ srules, (r.check g).passed = false →
          r.severity ≠ .Error ∧ r.severity ≠ .Critical)) := by
  rw [validate_eq]
  show (vrules.flatMap (RuleBasedValidator.validationErr g)
      ++ srules.flatMap (RuleBasedValidator.securityErr g)).isEmpty = true ↔ _
  rw [List.isEmpty_iff, List.append_eq_nil, List.flatMap_eq_nil_iff,
    List.flatMap_eq_nil_iff]
  constructor
  · rintro ⟨h1, h2⟩
    exact ⟨fun r hr => (validationErr_eq_nil g r).mp (h1 r hr),
      fun r hr => (securityErr_eq_nil g r).mp (h2 r hr)⟩
  · rintro ⟨h1, h2⟩
    exact ⟨fun r hr => (validationErr_eq_nil g r).mpr (h1 r hr),
      fun r hr => (securityErr_eq_nil g r).mpr (h2 r hr)⟩

/-! ### Cardinality rule (C6) -/

/-- The number of `Start` nodes of a graph. -/
def startCount (g : Graph) : Nat :=
  (g.get_nodes.filter (fun n => n.node_type = NodeType.Start)).length

/-- The number of `End` nodes of a graph. -/
def endCount (g : Graph) : Nat :=
  (g.get_nodes.filter (fun n => n.node_type = NodeType.End)).length

/-- The error text `validate` emits when the Start/End cardinality check
fails (rule-name prefix included). -/
def cardinalityMessage (g : Graph) : String :=
  "Start and End Nodes" ++ ": " ++ ("Expected 1 start and 1 end node, found "
    ++ toString (startCount g) ++ " start and " ++ toString (endCount g) ++ " end")

/-- The cardinality check's failing result names the actual counts found. -/
theorem startEnd_check_failed (g : Graph)
    (h : ¬(startCount g = 1 ∧ endCount g = 1)) :
    RuleBasedValidator.startEndRule.check g =
      { passed := false
        message := "Expected 1 start and 1 end node, found "
          ++ toString (startCount g) ++ " start and "
          ++ toString (endCount g) ++ " end"
        affected_nodes := [] } := by
  have h' : ¬((g.get_nodes.filter (fun n => n.node_type = NodeType.Start)).length = 1 ∧
      (g.get_nodes.filter (fun n => n.node_type = NodeType.End)).length = 1) := h
  unfold RuleBasedValidator.startEndRule
  simp only
  rw [if_neg h']
  rfl

/-- C6: whenever a graph does not have exactly one `Start` and one `End`
node, `validate` (over the constructor's rule tables, any severity standing
in for the ill-typed `High`) reports an `Error`-severity finding whose
message states the actual counts found, and the result is invalid. -/
theorem c6_cardinality_error (high : RuleSeverity) (g : Graph)
    (h : ¬(startCount g = 1 ∧ endCount g = 1)) :
    cardinalityMessage g ∈ (RuleBasedValidator.new_validate high g).errors ∧
    (RuleBasedValidator.new_validate high g).is_valid = false := by
  have herr : RuleBasedValidator.validationErr g RuleBasedValidator.startEndRule
      = [cardinalityMessage g] := by
    unfold RuleBasedValidator.validationErr
    rw [startEnd_check_failed g h]
    rfl
  have hmem : cardinalityMessage g ∈ (RuleBasedValidator.new_validate high g).errors := by
    unfold RuleBasedValidator.new_validate
    rw [validate_eq]
    show cardinalityMessage g ∈
      RuleBasedValidator.create_validation_rules.flatMap (RuleBasedValidator.validationErr g)
        ++ (RuleBasedValidator.create_security_rules high).flatMap
            (RuleBasedValidator.securityErr g)
    apply List.mem_append_left
    rw [List.mem_flatMap]
    refine ⟨RuleBasedValidator.startEndRule,
      by simp [RuleBasedValidator.create_validation_rules], ?_⟩
    rw [herr]
    exact List.mem_singleton.mpr rfl
  have hiv : (RuleBasedValidator.new_validate high g).is_valid
      = (RuleBasedValidator.new_validate high g).errors.isEmpty := by
    unfold RuleBasedValidator.new_validate
    rw [validate_eq]
  refine ⟨hmem, ?_⟩
  rw [hiv, List.isEmpty_eq_false]
  exact List.ne_nil_of_mem hmem

/-- Scenario D's graph: one `Start` node, no `End` node, no edges. -/
def scenarioDGraph : Graph :=
  { nodes := [ { id := "start", node_type := .Start, position := (0, 0), properties := [] } ]
    edges := [] }

/-- C6 witness: on the one-Start/no-End graph the validator reports exactly
the "found 1 start and 0 end" error and `is_valid = false` (shown here with
`Error` standing in for the ill-typed `High` severity; the cardinality rule's
output does not depend on that choice). -/
theorem c6_witness :
    ¬(startCount scenarioDGraph = 1 ∧ endCount scenarioDGraph = 1) ∧
    ("Start and End Nodes: Expected 1 start and 1 end node, found 1 start and 0 end"
        ∈ (RuleBasedValidator.new_validate .Error scenarioDGraph).errors ∧
      (RuleBasedValidator.new_validate .Error scenarioDGraph).is_valid = false) := by
  have happ := c6_cardinality_error .Error scenarioDGraph (by decide)
  have hstr : cardinalityMessage scenarioDGraph
      = "Start and End Nodes: Expected 1 start and 1 end node, found 1 start and 0 end" := by
    decide
  rw [hstr] at happ
  exact ⟨by decide, happ⟩

/-! ## `src/optimization/mod.rs` — the caching performance optimizer -/

namespace Perf

/-- Change type (`optimization::ChangeType`). -/
inductive ChangeType where
  | NodeRemoval
  | NodeConsolidation
  | EdgeOptimization
  | ConstantFolding
  | DeadCodeElimination
  | LoopOptimization
  | MemoryOptimization
deriving DecidableEq

/-- Optimization impact (`optimization::OptimizationImpact`). -/
inductive OptimizationImpact where
  | High
  | Medium
  | Low
deriving DecidableEq

/-- An optimization change (`optimization::OptimizationChange`). -/
structure OptimizationChange where
  change_type : ChangeType
  description : String
  nodes_affected : List String
  impact : OptimizationImpact
deriving DecidableEq

/-- A pass result (`optimization::OptimizationResult`; distinct from the AI
engine's result type of the same source name). -/
structure OptimizationResult where
  name : String
  original_gas : Nat
  optimized_gas : Nat
  gas_savings : Nat
  original_size : Nat
  optimized_size : Nat
  size_savings : Nat
  changes : List OptimizationChange
  warnings : List String
deriving DecidableEq

/-- An optimization pass (the `OptimizationPass` trait object): name,
applicability test, and the fallible `optimize` method (`CanvasResult`
modelled as `Except String`). -/
structure Pass where
  name : String
  is_applicable : Graph → Bool
  optimize : Graph → Except String OptimizationResult

/-- The cache key.  `compute_graph_hash` feeds the node and edge lists to a
deterministic hasher; equal lists always give equal keys, and the key is
modelled injectively by the pair of lists itself (hash collisions are the
only behaviour this abstracts away). -/
def GraphKey : Type := List Node × List Edge

instance : DecidableEq GraphKey := by
  unfold GraphKey
  infer_instance

/-- `PerformanceOptimizer::compute_graph_hash`. -/
def compute_graph_hash (g : Graph) : GraphKey := (g.get_nodes, g.get_edges)

/-- `HashMap::get` on the cache. -/
def cacheLookup (cache : List (GraphKey × OptimizationResult)) (k : GraphKey) :
    Option OptimizationResult :=
  match cache with
  | [] => none
  | p :: rest => if p.1 = k then some p.2 else cacheLookup rest k

/-- `HashMap::insert` on the cache: the new binding shadows any older one. -/
def cacheInsert (cache : List (GraphKey × OptimizationResult)) (k : GraphKey)
    (v : OptimizationResult) : List (GraphKey × OptimizationResult) :=
  (k, v) :: cache

/-- `PerformanceOptimizer::optimize` (state-passing model of the `&mut self`
cache): a cache hit returns the single cached result; otherwise every
applicable pass runs, each successful result is appended to the output *and*
inserted into the cache under the same graph hash (so later passes overwrite
earlier ones), and failed passes are skipped. -/
def optimize (passes : List Pass)
    (cache : List (GraphKey × OptimizationResult)) (g : Graph) :
    List OptimizationResult × List (GraphKey × OptimizationResult) :=
  let graph_hash := compute_graph_hash g
  match cacheLookup cache graph_hash with
  | some cached_result => ([cached_result], cache)
  | none =>
      passes.foldl
        (fun acc pass =>
          if pass.is_applicable g then
            match pass.optimize g with
            | .ok result => (acc.1 ++ [result], cacheInsert acc.2 graph_hash result)
            | .error _ => acc
          else acc)
        ([], cache)

end Perf

/-- An input value as seen by the constant-folding pass (`serde_json::Value`
restricted to the only observation made of it, `is_number`). -/
structure NodeInputValue where
  is_number : Bool
deriving DecidableEq

/-- Modelled from the spec: `Graph::get_node_inputs`, called by the
constant-folding pass, is code of this repository that is not under `src/`.
The spec's graph model (§3) attaches no runtime values to nodes' inputs —
edges carry only port names — so the input snapshot of a node is empty. -/
def Graph.get_node_inputs (_g : Graph) (_node_id : String) :
    Except String (List (String × NodeInputValue)) :=
  .ok []

namespace Perf

/-- The work-list of `DeadCodeEliminationPass` (a `Vec` popped from the back;
modelled with the top of the stack at the head).  Fuel is one unit per pop,
bounded by the number of ids ever pushed. -/
def dceLoop (edges : List Edge) : Nat → List String → List String → List String
  | 0, _, reachable => reachable
  | _ + 1, [], reachable => reachable
  | fuel + 1, node_id :: to_visit, reachable =>
      let stepped := edges.foldl
        (fun (acc : List String × List String) e =>
          if e.source = node_id ∧ e.target ∉ acc.1
          then (acc.1 ++ [e.target], e.target :: acc.2)
          else acc)
        (reachable, to_visit)
      dceLoop edges fuel stepped.2 stepped.1

/-- `DeadCodeEliminationPass::optimize`: BFS/DFS from `Start` nodes, then
estimate savings from the unreachable nodes. -/
def dead_code_elimination (g : Graph) : OptimizationResult :=
  let nodes := g.get_nodes
  let edges := g.get_edges
  let start_ids := (nodes.filter (fun n => n.node_type = NodeType.Start)).map (fun n => n.id)
  let reachable := dceLoop edges (nodes.length + edges.length + 1) start_ids.reverse start_ids
  let unreachable_nodes := (nodes.filter (fun n => n.id ∉ reachable)).map (fun n => n.id)
  let gas_savings := unreachable_nodes.length * 100
  let size_savings := unreachable_nodes.length * 50
  let changes :=
    if ¬unreachable_nodes.isEmpty then
      [ { change_type := ChangeType.DeadCodeElimination
          description := "Remove " ++ toString unreachable_nodes.length ++ " unreachable nodes"
          nodes_affected := unreachable_nodes
          impact := OptimizationImpact.High } ]
    else []
  { name := "Dead Code Elimination"
    original_gas := 0
    optimized_gas := 0
    gas_savings := gas_savings
    original_size := 0
    optimized_size := 0
    size_savings := size_savings
    changes := changes
    warnings := [] }

/-- The dead-code-elimination pass; always applicable. -/
def deadCodeEliminationPass : Pass :=
  { name := "dead_code_elimination"
    is_applicable := fun _ => true
    optimize := fun g => .ok (dead_code_elimination g) }

/-- `ConstantFoldingPass::optimize`: collect the arithmetic nodes all of
whose inputs are numbers, short-circuiting on a `get_node_inputs` error
(the `?` operator). -/
def constant_folding (g : Graph) : Except String OptimizationResult :=
  match g.get_nodes.foldl
      (fun (acc : Except String (List String)) node =>
        match acc with
        | .error e => .error e
        | .ok folded =>
            if node.node_type = NodeType.Arithmetic then
              match Graph.get_node_inputs g node.id with
              | .error e => .error e
              | .ok inputs =>
                  .ok (if inputs.all (fun kv => kv.2.is_number) then folded ++ [node.id]
                       else folded)
            else .ok folded)
      (.ok []) with
  | .error e => .error e
  | .ok folded_nodes =>
      .ok { name := "Constant Folding"
            original_gas := 0
            optimized_gas := 0
            gas_savings := folded_nodes.length * 10
            original_size := 0
            optimized_size := 0
            size_savings := folded_nodes.length * 20
            changes :=
              if ¬folded_nodes.isEmpty then
                [ { change_type := ChangeType.ConstantFolding
                    description := "Fold " ++ toString folded_nodes.length
                      ++ " constant expressions"
                    nodes_affected := folded_nodes
                    impact := OptimizationImpact.Medium } ]
              else []
            warnings := [] }

/-- The constant-folding pass; applicable when an arithmetic node exists. -/
def constantFoldingPass : Pass :=
  { name := "constant_folding"
    is_applicable := fun g => g.get_nodes.any (fun n => n.node_type = NodeType.Arithmetic)
    optimize := constant_folding }

/-- `LoopOptimizationPass::optimize`: `find_loops` is a stub returning no
loops in the source, so nothing is ever optimized. -/
def loop_optimization (_g : Graph) : OptimizationResult :=
  let optimized_loops : List String := []
  { name := "Loop Optimization"
    original_gas := 0
    optimized_gas := 0
    gas_savings := optimized_loops.length * 50
    original_size := 0
    optimized_size := 0
    size_savings := optimized_loops.length * 30
    changes := []
    warnings := [] }

/-- The loop-optimization pass; applicable when more than two `Control`
nodes exist. -/
def loopOptimizationPass : Pass :=
  { name := "loop_optimization"
    is_applicable := fun g =>
      (g.get_nodes.filter (fun n => n.node_type = NodeType.Control)).length > 2
    optimize := fun g => .ok (loop_optimization g) }

/-- `MemoryOptimizationPass::optimize`: every `State` node counts as a
memory-intensive operation. -/
def memory_optimization (g : Graph) : OptimizationResult :=
  let memory_optimized_nodes :=
    (g.get_nodes.filter (fun n => n.node_type = NodeType.State)).map (fun n => n.id)
  { name := "Memory Optimization"
    original_gas := 0
    optimized_gas := 0
    gas_savings := memory_optimized_nodes.length * 200
    original_size := 0
    optimized_size := 0
    size_savings := memory_optimized_nodes.length * 40
    changes :=
      if ¬memory_optimized_nodes.isEmpty then
        [ { change_type := ChangeType.MemoryOptimization
            description := "Optimize " ++ toString memory_optimized_nodes.length
              ++ " memory operations"
            nodes_affected := memory_optimized_nodes
            impact := OptimizationImpact.High } ]
      else []
    warnings := [] }

/-- The memory-optimization pass; applicable when a `State` node exists. -/
def memoryOptimizationPass : Pass :=
  { name := "memory_optimization"
    is_applicable := fun g => g.get_nodes.any (fun n => n.node_type = NodeType.State)
    optimize := fun g => .ok (memory_optimization g) }

/-- The `{:?}` rendering of a node type, the key the cache pass counts by. -/
def nodeTypeName : NodeType → String
  | .Start => "Start"
  | .End => "End"
  | .State => "State"
  | .Logic => "Logic"
  | .Arithmetic => "Arithmetic"
  | .External => "External"
  | .Control => "Control"

/-- `CacheOptimizationPass::optimize`: count nodes by type name; each type
occurring more than once is a cacheable repeated operation.  (The source
iterates a `HashMap` here; only the number of such types is observable in
the result.) -/
def cache_optimization (g : Graph) : OptimizationResult :=
  let type_keys := (g.get_nodes.map (fun n => nodeTypeName n.node_type)).dedup
  let cache_optimized_nodes := type_keys.filter
    (fun t => (g.get_nodes.map (fun n => nodeTypeName n.node_type)).count t > 1)
  { name := "Cache Optimization"
    original_gas := 0
    optimized_gas := 0
    gas_savings := cache_optimized_nodes.length * 150
    original_size := 0
    optimized_size := 0
    size_savings := cache_optimized_nodes.length * 25
    changes :=
      if ¬cache_optimized_nodes.isEmpty then
        [ { change_type := ChangeType.NodeConsolidation
            description := "Cache " ++ toString cache_optimized_nodes.length
              ++ " repeated operations"
            nodes_affected := []
            impact := OptimizationImpact.Medium } ]
      else []
    warnings := [] }

/-- The cache-optimization pass; applicable when some node type repeats. -/
def cacheOptimizationPass : Pass :=
  { name := "cache_optimization"
    is_applicable := fun g =>
      ((g.get_nodes.map (fun n => nodeTypeName n.node_type)).dedup).any
        (fun t => (g.get_nodes.map (fun n => nodeTypeName n.node_type)).count t > 1)
    optimize := fun g => .ok (cache_optimization g) }

/-- The pass list registered by `PerformanceOptimizer::new`, in order. -/
def create_passes : List Pass :=
  [deadCodeEliminationPass, constantFoldingPass, loopOptimizationPass,
   memoryOptimizationPass, cacheOptimizationPass]

end Perf

/-! ### Cache behaviour of `PerformanceOptimizer::optimize` (C8) -/

/-- The results the pass loop produces on a cache miss, in pass order. -/
def passResults (passes : List Perf.Pass) (g : Graph) : List Perf.OptimizationResult :=
  passes.filterMap (fun pass =>
    if pass.is_applicable g then
      match pass.optimize g with
      | .ok result => some result
      | .error _ => none
    else none)

/-- The pass loop appends `passResults` to the accumulator, and afterwards
the cache answers the graph's key with the *last* produced result (or as
before, when no pass produced one). -/
theorem optimize_fold_spec (g : Graph) (key : Perf.GraphKey) :
    ∀ (passes : List Perf.Pass) (acc : List Perf.OptimizationResult)
      (cache : List (Perf.GraphKey × Perf.OptimizationResult)),
      (passes.foldl
        (fun acc' pass =>
          if pass.is_applicable g then
            match pass.optimize g with
            | .ok result => (acc'.1 ++ [result], Perf.cacheInsert acc'.2 key result)
            | .error _ => acc'
          else acc')
        (acc, cache)).1 = acc ++ passResults passes g ∧
      Perf.cacheLookup (passes.foldl
        (fun acc' pass =>
          if pass.is_applicable g then
            match pass.optimize g with
            | .ok result => (acc'.1 ++ [result], Perf.cacheInsert acc'.2 key result)
            | .error _ => acc'
          else acc')
        (acc, cache)).2 key =
        (match (passResults passes g).getLast? with
         | some r => some r
         | none => Perf.cacheLookup cache key) := by
  intro passes
  induction passes with
  | nil =>
    intro acc cache
    simp [passResults]
  | cons p ps ih =>
    intro acc cache
    rw [List.foldl_cons]
    simp only
    by_cases happ : p.is_applicable g
    · rw [if_pos happ]
      rcases hrun : p.optimize g with e | result
      · simp only
        have hres : passResults (p :: ps) g = passResults ps g := by
          unfold passResults
          rw [List.filterMap_cons, if_pos happ, hrun]
        rw [hres]
        exact ih acc cache
      · simp only
        have hres : passResults (p :: ps) g = result :: passResults ps g := by
          unfold passResults
          rw [List.filterMap_cons, if_pos happ, hrun]
        rw [hres]
        obtain ⟨h1, h2⟩ := ih (acc ++ [result]) (Perf.cacheInsert cache key result)
        constructor
        · rw [h1, List.append_assoc]
          rfl
        · rw [h2]
          rcases hps : passResults ps g with - | ⟨b, tl⟩
          · rw [List.getLast?_singleton]
            simp [Perf.cacheLookup, Perf.cacheInsert]
          · rw [List.getLast?_cons_cons]
            have hbtl : (b :: tl).getLast? = some ((b :: tl).getLast (by simp)) :=
              List.getLast?_eq_getLast (b :: tl) (by simp)
            rw [hbtl]
    · rw [if_neg happ]
      have hres : passResults (p :: ps) g = passResults ps g := by
        unfold passResults
        rw [List.filterMap_cons, if_neg happ]
      rw [hres]
      exact ih acc cache

/-- On a cache miss, `optimize` returns exactly the per-pass results. -/
theorem optimize_miss_results (passes : List Perf.Pass)
    (cache : List (Perf.GraphKey × Perf.OptimizationResult)) (g : Graph)
    (hmiss : Perf.cacheLookup cache (Perf.compute_graph_hash g) = none) :
    (Perf.optimize passes cache g).1 = passResults passes g := by
  unfold Perf.optimize
  simp only
  rw [hmiss]
  have h := (optimize_fold_spec g (Perf.compute_graph_hash g) passes [] cache).1
  rw [List.nil_append] at h
  exact h

/-- On a cache miss, the updated cache afterwards answers the graph's key
with the last produced result, if any. -/
theorem optimize_miss_cache (passes : List Perf.Pass)
    (cache : List (Perf.GraphKey × Perf.OptimizationResult)) (g : Graph)
    (hmiss : Perf.cacheLookup cache (Perf.compute_graph_hash g) = none) :
    Perf.cacheLookup (Perf.optimize passes cache g).2 (Perf.compute_graph_hash g)
      = (match (passResults passes g).getLast? with
         | some r => some r
         | none => none) := by
  unfold Perf.optimize
  simp only
  rw [hmiss]
  have h := (optimize_fold_spec g (Perf.compute_graph_hash g) passes [] cache).2
  rw [hmiss] at h
  exact h

/-- On a cache hit, `optimize` returns the singleton cached result and
leaves the cache unchanged. -/
theorem optimize_hit (passes : List Perf.Pass)
    (cache : List (Perf.GraphKey × Perf.OptimizationResult)) (g : Graph)
    (r : Perf.OptimizationResult)
    (hhit : Perf.cacheLookup cache (Perf.compute_graph_hash g) = some r) :
    Perf.optimize passes cache g = ([r], cache) := by
  unfold Perf.optimize
  simp only
  rw [hhit]

/-- C8 (amended): on an unchanged graph whose key is not yet cached, the
second `optimize` call does not repeat the first call's result list: it
returns the singleton holding only the *last* result the first call produced
(every per-pass cache insert shares the same graph key, so the last pass
wins), or the empty list when no pass produced a result.  The two calls agree
only when the first call produced at most one result. -/
theorem c8_second_call_returns_last (passes : List Perf.Pass)
    (cache : List (Perf.GraphKey × Perf.OptimizationResult)) (g : Graph)
    (hmiss : Perf.cacheLookup cache (Perf.compute_graph_hash g) = none) :
    (Perf.optimize passes (Perf.optimize passes cache g).2 g).1
      = ((Perf.optimize passes cache g).1).getLast?.toList := by
  rw [optimize_miss_results passes cache g hmiss]
  have hcache := optimize_miss_cache passes cache g hmiss
  rcases hlast : (passResults passes g).getLast? with - | r
  · rw [hlast] at hcache
    rw [optimize_miss_results passes _ g hcache]
    rw [List.getLast?_eq_none_iff.mp hlast]
    rfl
  · rw [hlast] at hcache
    rw [optimize_hit passes _ g r hcache]
    rfl

/-- A graph with a single `State` node: both the dead-code-elimination pass
(always applicable) and the memory-optimization pass apply, so the first
`optimize` call produces two results. -/
def c8Graph : Graph :=
  { nodes := [ { id := "st", node_type := .State, position := (0, 0), properties := [] } ]
    edges := [] }

/-- C8 counterexample: starting from an empty cache, the first call on
`c8Graph` returns two results while the second call on the unchanged graph
returns one (the cached last result), so the two calls are not identical. -/
theorem c8_counterexample :
    (Perf.optimize Perf.create_passes [] c8Graph).1.length = 2 ∧
    (Perf.optimize Perf.create_passes
      (Perf.optimize Perf.create_passes [] c8Graph).2 c8Graph).1.length = 1 ∧
    (Perf.optimize Perf.create_passes
        (Perf.optimize Perf.create_passes [] c8Graph).2 c8Graph).1
      ≠ (Perf.optimize Perf.create_passes [] c8Graph).1 := by
  refine ⟨by decide, by decide, by decide⟩

/-- C8 witness: the amended statement evaluated from the empty cache on
`c8Graph`. -/
theorem c8_witness :
    Perf.cacheLookup [] (Perf.compute_graph_hash c8Graph) = none ∧
    (Perf.optimize Perf.create_passes
        (Perf.optimize Perf.create_passes [] c8Graph).2 c8Graph).1
      = ((Perf.optimize Perf.create_passes [] c8Graph).1).getLast?.toList :=
  ⟨rfl, c8_second_call_returns_last Perf.create_passes [] c8Graph rfl⟩

/-! ## `src/types.rs` — value types and the compatibility relation (C10) -/

/-- Value types (`types::ValueType`).  `Object`'s `HashMap<String,
ValueType>` is modelled as an association list; the `HashMap`'s key
uniqueness becomes the `WFValueType` predicate below. -/
inductive ValueType where
  | Boolean
  | Integer
  | Float
  | String
  | Bytes
  | Array (inner : ValueType)
  | Object (fields : List (String × ValueType))
  | Flow
  | Any

/-- `HashMap::get` on an object's field map. -/
def lookupVT (k : String) : List (String × ValueType) → Option ValueType
  | [] => none
  | p :: rest => if p.1 = k then some p.2 else lookupVT k rest

/-- A looked-up value is structurally smaller than the field list. -/
theorem lookupVT_sizeOf :
    ∀ (f : List (String × ValueType)) (k : String) (v : ValueType),
      lookupVT k f = some v → sizeOf v < sizeOf f := by
  intro f
  induction f with
  | nil => intro k v h; cases h
  | cons p rest ih =>
    intro k v h
    unfold lookupVT at h
    split at h
    · injection h with h
      subst h
      rcases p with ⟨k', v⟩
      simp only [List.cons.sizeOf_spec, Prod.mk.sizeOf_spec]
      omega
    · have := ih k v h
      simp only [List.cons.sizeOf_spec]
      omega

mutual

/-- `ValueType::is_compatible_with`, arm for arm: `Any` matches everything,
`Flow` and the primitives only themselves, arrays recurse on the element
type, and objects require equal field counts with every field of the left
map found (by key) in the right map at a compatible type. -/
def is_compatible_with : ValueType → ValueType → Bool
  | .Any, _ => true
  | _, .Any => true
  | .Flow, .Flow => true
  | .Boolean, .Boolean => true
  | .Integer, .Integer => true
  | .Float, .Float => true
  | .String, .String => true
  | .Bytes, .Bytes => true
  | .Array inner1, .Array inner2 => is_compatible_with inner1 inner2
  | .Object fields1, .Object fields2 =>
      fields1.length = fields2.length && fieldsCompatible fields1 fields2
  | _, _ => false
termination_by a b => sizeOf a + sizeOf b
decreasing_by
  all_goals
    first
    | (simp only [ValueType.Array.sizeOf_spec]
       omega)
    | (simp only [ValueType.Object.sizeOf_spec]
       omega)
    | (have hv2 := lookupVT_sizeOf _ _ _ h
       rcases kv with ⟨k, v⟩
       simp only [List.cons.sizeOf_spec, Prod.mk.sizeOf_spec] at *
       omega)
    | (simp only [List.cons.sizeOf_spec]
       omega)

/-- The `fields1.iter().all(...)` loop of the `Object` arm. -/
def fieldsCompatible : List (String × ValueType) → List (String × ValueType) → Bool
  | [], _ => true
  | kv :: rest, fields2 =>
      (match h : lookupVT kv.1 fields2 with
       | some v2 => is_compatible_with kv.2 v2
       | none => false) && fieldsCompatible rest fields2
termination_by f1 f2 => sizeOf f1 + sizeOf f2
decreasing_by
  all_goals
    first
    | (simp only [ValueType.Array.sizeOf_spec]
       omega)
    | (simp only [ValueType.Object.sizeOf_spec]
       omega)
    | (have hv2 := lookupVT_sizeOf _ _ _ h
       rcases kv with ⟨k, v⟩
       simp only [List.cons.sizeOf_spec, Prod.mk.sizeOf_spec] at *
       omega)
    | (simp only [List.cons.sizeOf_spec]
       omega)

end

mutual

/-- Well-formedness transported from `HashMap`: every object field map in a
value has duplicate-free keys. -/
def WFValueType : ValueType → Bool
  | .Array inner => WFValueType inner
  | .Object fields => (fields.map Prod.fst).Nodup && WFFields fields
  | _ => true
termination_by a => sizeOf a
decreasing_by
  all_goals
    first
    | (simp only [ValueType.Array.sizeOf_spec]
       omega)
    | (simp only [ValueType.Object.sizeOf_spec]
       omega)

/-- All field values of an object are well-formed. -/
def WFFields : List (String × ValueType) → Bool
  | [] => true
  | kv :: rest => WFValueType kv.2 && WFFields rest
termination_by f => sizeOf f
decreasing_by
  all_goals
    first
    | (rcases kv with ⟨k, v⟩
       simp only [List.cons.sizeOf_spec, Prod.mk.sizeOf_spec]
       omega)
    | (rcases p with ⟨k, v⟩
       simp only [List.cons.sizeOf_spec, Prod.mk.sizeOf_spec]
       omega)
    | (simp only [List.cons.sizeOf_spec]
       omega)

end

/-- Looked-up pairs are members of the field list. -/
theorem lookupVT_mem : ∀ {f : List (String × ValueType)} {k : String} {v : ValueType},
    lookupVT k f = some v → (k, v) ∈ f := by
  intro f
  induction f with
  | nil => intro k v h; cases h
  | cons p rest ih =>
    intro k v h
    unfold lookupVT at h
    split at h
    · next heq =>
      injection h with h
      rcases p with ⟨k', v'⟩
      rw [List.mem_cons]
      left
      simp_all
    · exact List.mem_cons_of_mem p (ih h)

/-- With duplicate-free keys, membership determines the lookup result. -/
theorem lookupVT_of_mem : ∀ {f : List (String × ValueType)},
    (f.map Prod.fst).Nodup → ∀ {k : String} {v : ValueType},
    (k, v) ∈ f → lookupVT k f = some v := by
  intro f
  induction f with
  | nil => intro _ k v h; cases h
  | cons p rest ih =>
    intro hnd k v h
    rw [List.map_cons, List.nodup_cons] at hnd
    rcases List.mem_cons.mp h with rfl | hmem
    · unfold lookupVT
      rw [if_pos rfl]
    · unfold lookupVT
      by_cases hk : p.1 = k
      · exfalso
        apply hnd.1
        rw [hk]
        exact List.mem_map.mpr ⟨(k, v), hmem, rfl⟩
      · rw [if_neg hk]
        exact ih hnd.2 hmem

/-- A key present in the key list has a successful lookup. -/
theorem lookupVT_total : ∀ {f : List (String × ValueType)} {k : String},
    k ∈ f.map Prod.fst → ∃ v, lookupVT k f = some v := by
  intro f
  induction f with
  | nil => intro k h; cases h
  | cons p rest ih =>
    intro k h
    by_cases hk : p.1 = k
    · exact ⟨p.2, by unfold lookupVT; rw [if_pos hk]⟩
    · rw [List.map_cons, List.mem_cons] at h
      rcases h with rfl | h
      · exact absurd rfl hk
      · obtain ⟨v, hv⟩ := ih h
        exact ⟨v, by unfold lookupVT; rw [if_neg hk, hv]⟩

/-- A successful lookup's key is in the key list. -/
theorem mem_keys_of_lookupVT {f : List (String × ValueType)} {k : String}
    {v : ValueType} (h : lookupVT k f = some v) : k ∈ f.map Prod.fst :=
  List.mem_map.mpr ⟨(k, v), lookupVT_mem h, rfl⟩

/-- Two duplicate-free lists of equal length with one included in the other
are mutually included. -/
theorem mem_rev_of_subset_of_length {l1 l2 : List String} (h1 : l1.Nodup)
    (h2 : l2.Nodup) (hlen : l1.length = l2.length)
    (hsub : ∀ x ∈ l1, x ∈ l2) : ∀ x ∈ l2, x ∈ l1 := by
  have hfs : l1.toFinset ⊆ l2.toFinset := by
    intro x hx
    rw [List.mem_toFinset] at *
    exact hsub x hx
  have hcard : l2.toFinset.card ≤ l1.toFinset.card := by
    rw [List.toFinset_card_of_nodup h1, List.toFinset_card_of_nodup h2]
    omega
  have heq : l1.toFinset = l2.toFinset := Finset.eq_of_subset_of_card_le hfs hcard
  intro x hx
  rw [← List.mem_toFinset, heq, List.mem_toFinset]
  exact hx

/-- The field loop succeeds exactly when every left field is found at a
compatible type on the right. -/
theorem fieldsCompatible_iff (f2 : List (String × ValueType)) :
    ∀ f1, fieldsCompatible f1 f2 = true ↔
      ∀ kv ∈ f1, ∃ v2, lookupVT kv.1 f2 = some v2 ∧
        is_compatible_with kv.2 v2 = true := by
  intro f1
  induction f1 with
  | nil => simp [fieldsCompatible]
  | cons kv rest ih =>
    rw [fieldsCompatible, Bool.and_eq_true, ih]
    constructor
    · rintro ⟨hhead, htail⟩ kv' hkv'
      rcases List.mem_cons.mp hkv' with rfl | hkv'
      · split at hhead
        · next v2 heq => exact ⟨v2, heq, hhead⟩
        · cases hhead
      · exact htail kv' hkv'
    · intro hall
      constructor
      · obtain ⟨v2, hv2, hc⟩ := hall kv (List.mem_cons_self kv rest)
        split
        · next v2' heq =>
          rw [heq] at hv2
          injection hv2 with hv2
          rw [← hv2] at hc
          exact hc
        · next heq =>
          rw [heq] at hv2
          cases hv2
      · intro kv' hkv'
        exact hall kv' (List.mem_cons_of_mem kv hkv')

/-- A well-formed object has duplicate-free keys and well-formed fields. -/
theorem WF_object {f : List (String × ValueType)}
    (h : WFValueType (.Object f) = true) :
    (f.map Prod.fst).Nodup ∧ WFFields f = true := by
  rw [WFValueType, Bool.and_eq_true] at h
  exact ⟨by simpa using h.1, h.2⟩

/-- Each field value of a well-formed field list is well-formed. -/
theorem WFFields_mem : ∀ {f : List (String × ValueType)}, WFFields f = true →
    ∀ {kv : String × ValueType}, kv ∈ f → WFValueType kv.2 = true := by
  intro f
  induction f with
  | nil => intro _ kv h; cases h
  | cons p rest ih =>
    intro hwf kv hkv
    rw [WFFields, Bool.and_eq_true] at hwf
    rcases List.mem_cons.mp hkv with rfl | hkv
    · exact hwf.1
    · exact ih hwf.2 hkv

/-- One direction of symmetry, by strong induction on total size. -/
theorem is_compatible_with_symm_imp :
    ∀ (n : Nat) (a b : ValueType), sizeOf a + sizeOf b ≤ n →
      WFValueType a = true → WFValueType b = true →
      is_compatible_with a b = true → is_compatible_with b a = true := by
  intro n
  induction n using Nat.strong_induction_on with
  | _ n ih =>
    intro a b hn hwa hwb hab
    cases a <;> cases b <;> simp only [is_compatible_with] at hab ⊢ <;>
      first
      | rfl
      | simp only [Bool.false_eq_true] at hab
      | skip
    · -- Array / Array
      rename_i i1 i2
      simp only [WFValueType] at hwa hwb
      have hm : sizeOf i1 + sizeOf i2 < n := by
        simp only [ValueType.Array.sizeOf_spec] at hn
        omega
      exact ih _ hm i1 i2 le_rfl hwa hwb hab
    · -- Object / Object
      rename_i f1 f2
      rw [Bool.and_eq_true] at hab ⊢
      obtain ⟨hlen, hfc⟩ := hab
      have hlen' : f1.length = f2.length := by simpa using hlen
      obtain ⟨hnd1, hwf1⟩ := WF_object hwa
      obtain ⟨hnd2, hwf2⟩ := WF_object hwb
      rw [fieldsCompatible_iff] at hfc
      have hsub : ∀ k ∈ f1.map Prod.fst, k ∈ f2.map Prod.fst := by
        intro k hk
        obtain ⟨⟨k', v⟩, hmem, rfl⟩ := List.mem_map.mp hk
        obtain ⟨v2, hv2, -⟩ := hfc (k', v) hmem
        exact mem_keys_of_lookupVT hv2
      have hsub2 : ∀ k ∈ f2.map Prod.fst, k ∈ f1.map Prod.fst :=
        mem_rev_of_subset_of_length hnd1 hnd2 (by simp [hlen']) hsub
      refine ⟨by simp [hlen'], ?_⟩
      rw [fieldsCompatible_iff]
      rintro ⟨k, v2⟩ hmem2
      have hk1 : k ∈ f1.map Prod.fst :=
        hsub2 k (List.mem_map.mpr ⟨(k, v2), hmem2, rfl⟩)
      obtain ⟨v1, hv1⟩ := lookupVT_total hk1
      obtain ⟨v2', hv2', hcomp⟩ := hfc (k, v1) (lookupVT_mem hv1)
      have hv2eq : v2' = v2 := by
        rw [lookupVT_of_mem hnd2 hmem2] at hv2'
        injection hv2' with h
        exact h.symm
      rw [hv2eq] at hcomp
      refine ⟨v1, lookupVT_of_mem hnd1 (lookupVT_mem hv1), ?_⟩
      have hmemv1 : (k, v1) ∈ f1 := lookupVT_mem hv1
      have hm : sizeOf v1 + sizeOf v2 < n := by
        have hs1 := List.sizeOf_lt_of_mem hmemv1
        have hs2 := List.sizeOf_lt_of_mem hmem2
        simp only [Prod.mk.sizeOf_spec] at hs1 hs2
        simp only [ValueType.Object.sizeOf_spec] at hn
        omega
      exact ih _ hm v1 v2 le_rfl
        (WFFields_mem hwf1 hmemv1) (WFFields_mem hwf2 hmem2) hcomp

/-- C10: the value-type compatibility relation of `is_compatible_with` is
symmetric on well-formed values (object field maps with duplicate-free keys,
as a `HashMap` guarantees), including the recursive `Array` and `Object`
cases. -/
theorem c10_compatibility_symmetric (a b : ValueType)
    (hwa : WFValueType a = true) (hwb : WFValueType b = true) :
    is_compatible_with a b = is_compatible_with b a := by
  rcases hab : is_compatible_with a b with - | -
  · rcases hba : is_compatible_with b a with - | -
    · rfl
    · have := is_compatible_with_symm_imp (sizeOf b + sizeOf a) b a le_rfl hwb hwa hba
      rw [hab] at this
      cases this
  · exact (is_compatible_with_symm_imp (sizeOf a + sizeOf b) a b le_rfl hwa hwb hab).symm

/-- C10 witness: symmetry evaluated at two concrete well-formed object
types with the same keys in different orders. -/
theorem c10_witness :
    WFValueType (.Object [("k", .Integer), ("j", .Boolean)]) = true ∧
    WFValueType (.Object [("j", .Boolean), ("k", .Any)]) = true ∧
    is_compatible_with (.Object [("k", .Integer), ("j", .Boolean)])
        (.Object [("j", .Boolean), ("k", .Any)])
      = is_compatible_with (.Object [("j", .Boolean), ("k", .Any)])
        (.Object [("k", .Integer), ("j", .Boolean)]) := by
  have h1 : WFValueType (.Object [("k", .Integer), ("j", .Boolean)]) = true := by
    simp [WFValueType, WFFields]
  have h2 : WFValueType (.Object [("j", .Boolean), ("k", .Any)]) = true := by
    simp [WFValueType, WFFields]
  exact ⟨h1, h2, c10_compatibility_symmetric _ _ h1 h2⟩
